import Mathlib

/-!
# hello-timeout.go: the per-connection timeout loop and the accept dispatch

A shallow embedding of `frameworks/go/hello-timeout.go`.

The program talks to the outside world only through `time.Now`, the methods of
one `net.Conn`, the `log` package, `net.Listen` and `Accept`.  Each of these is an
operation of an explicit environment, and every run records the operations it
performs, with their arguments and results, in a trace.  The two endless `for`
loops are driven by a fuel counter; a run that uses up its fuel ends in the
outcome `running`.
-/

namespace HelloTimeout

/-! ## Data model -/

/-- A byte, as a natural number below 256. -/
abbrev Byte := Nat

/-- A point in time (the library type `time.Time`), as a count of nanoseconds. -/
abbrev Time := Int

/-- A Go `error` value, identified with its message `err.Error()`. -/
abbrev Err := String

/-- The conversion `[]byte(s)` of a Go string: its UTF-8 encoding. -/
def goBytes (s : String) : List Byte :=
  s.toList.flatMap fun c => (String.utf8EncodeChar c).map UInt8.toNat

/-- The package variable `response` (line 13). -/
def response : List Byte :=
  goBytes "HTTP/1.1 200 OK\nContent-Length: 12\n\nHello world!"

/-- The constant `time.Second`, a duration in nanoseconds. -/
def Second : Int := 1000000000

/-- The length of `buf := make([]byte, 1024)` (line 17). -/
def bufLen : Nat := 1024

/-- What `hello` does to the outside world, in program order. -/
inductive Event where
  /-- The call `time.Now()` returned `t`. -/
  | now (t : Time)
  /-- The call `conn.SetReadDeadline(d)` returned `err`. -/
  | setReadDeadline (d : Time) (err : Option Err)
  /-- The call `reader.Read(buf)` with `len(buf) = cap` delivered `data` and returned `err`. -/
  | read (cap : Nat) (data : List Byte) (err : Option Err)
  /-- The call `conn.SetWriteDeadline(d)` returned `err`. -/
  | setWriteDeadline (d : Time) (err : Option Err)
  /-- The call `conn.Write(p)` returned `(n, err)`. -/
  | write (p : List Byte) (n : Nat) (err : Option Err)
  /-- The call of `log.Printf` printed `msg`. -/
  | logPrintf (msg : String)
  /-- The call of `log.Fatalln` printed `msg` and ended the process with `os.Exit(1)`. -/
  | logFatalln (msg : String)
  /-- The call `conn.Close()` was made (its result is discarded). -/
  | close
  deriving DecidableEq

/-- The operations whose results `hello` looks at, as transformers of a state
`σ` of the outside world: `time.Now`, the deadline setters and `Write` of the
connection, and the `Read` of what the loop reads from (an argument of `read` is
the length of the destination slice, its result the bytes stored there and the
error).  `conn.Close()` is the last thing a run does and its result is
discarded, so it appears in the trace only. -/
structure Ops (σ : Type) where
  now : σ → Time × σ
  setReadDeadline : Time → σ → Option Err × σ
  read : Nat → σ → (List Byte × Option Err) × σ
  setWriteDeadline : Time → σ → Option Err × σ
  write : List Byte → σ → (Nat × Option Err) × σ

/-- How the `for` loop of `hello` was left. -/
inductive LoopExit where
  /-- By one of the four `break` statements. -/
  | broke
  /-- By `log.Fatalln`, which ends the process. -/
  | fatal
  /-- Not yet: the fuel ran out while the loop was still going. -/
  | running
  deriving DecidableEq

/-- The `for` loop of `hello` (lines 19-46), at most `fuel` iterations of it. -/
def helloLoop {σ : Type} (ops : Ops σ) : Nat → σ → List Event × LoopExit × σ
  | 0, s => ([], LoopExit.running, s)
  | fuel + 1, s =>
    let r1 := ops.now s
    let dl := r1.1 + 5 * Second
    let r2 := ops.setReadDeadline dl r1.2
    match r2.1 with
    | some err =>
      ([Event.now r1.1, Event.setReadDeadline dl (some err),
        Event.logPrintf ("Setting read deadline failed: " ++ err)], LoopExit.broke, r2.2)
    | none =>
      let r3 := ops.read bufLen r2.2
      match r3.1.2 with
      | some err =>
        ([Event.now r1.1, Event.setReadDeadline dl none, Event.read bufLen r3.1.1 (some err),
          Event.logPrintf ("Reading failed: " ++ err)], LoopExit.broke, r3.2)
      | none =>
        let r4 := ops.now r3.2
        let dl2 := r4.1 + 5 * Second
        let r5 := ops.setWriteDeadline dl2 r4.2
        match r5.1 with
        | some err =>
          ([Event.now r1.1, Event.setReadDeadline dl none, Event.read bufLen r3.1.1 none,
            Event.now r4.1, Event.setWriteDeadline dl2 (some err),
            Event.logPrintf ("Setting write deadline failed: " ++ err)], LoopExit.broke, r5.2)
        | none =>
          let r6 := ops.write response r5.2
          match r6.1.2 with
          | some err =>
            ([Event.now r1.1, Event.setReadDeadline dl none, Event.read bufLen r3.1.1 none,
              Event.now r4.1, Event.setWriteDeadline dl2 none,
              Event.write response r6.1.1 (some err),
              Event.logPrintf ("Writing failed: " ++ err)], LoopExit.broke, r6.2)
          | none =>
            if r6.1.1 ≠ response.length then
              ([Event.now r1.1, Event.setReadDeadline dl none, Event.read bufLen r3.1.1 none,
                Event.now r4.1, Event.setWriteDeadline dl2 none,
                Event.write response r6.1.1 none,
                Event.logFatalln "Writing failed"], LoopExit.fatal, r6.2)
            else
              let rest := helloLoop ops fuel r6.2
              ([Event.now r1.1, Event.setReadDeadline dl none, Event.read bufLen r3.1.1 none,
                Event.now r4.1, Event.setWriteDeadline dl2 none,
                Event.write response r6.1.1 none] ++ rest.1, rest.2)

/-- How a run of `hello` ended. -/
inductive Outcome where
  /-- The function returned to its caller (the goroutine ended). -/
  | returned
  /-- The process was terminated by `log.Fatalln`. -/
  | fatal
  /-- The loop was still going when the fuel ran out. -/
  | running
  deriving DecidableEq

/-- A run of `hello`: the trace of its operations and how it ended. -/
structure Run where
  trace : List Event
  outcome : Outcome
  deriving DecidableEq

/-- The body of `hello` after its two declarations: the loop, then
`conn.Close()` (line 48), which is reached from a `break` only. -/
def helloOn {σ : Type} (ops : Ops σ) (fuel : Nat) (s : σ) : Run :=
  let r := helloLoop ops fuel s
  match r.2.1 with
  | LoopExit.broke => { trace := r.1 ++ [Event.close], outcome := Outcome.returned }
  | LoopExit.fatal => { trace := r.1, outcome := Outcome.fatal }
  | LoopExit.running => { trace := r.1, outcome := Outcome.running }

/-! ## The buffered reader

`reader := bufio.NewReader(conn)` (line 16) comes from the Go standard library.
Its `Read` is modelled after the library source: a `Reader` with an empty
buffer and a destination shorter than the buffer performs one `Read` of the
underlying connection into the whole buffer and hands out as much as fits into
the destination; a `Reader` with buffered bytes hands those out without
touching the connection. -/

/-- The fields of a `bufio.Reader` that its `Read` works on: `size` is
`len(b.buf)`, `buffered` is `b.buf[b.r:b.w]`, `err` is `b.err`. -/
structure Reader where
  size : Nat
  buffered : List Byte
  err : Option Err
  deriving DecidableEq

/-- The reader `bufio.NewReader(conn)`: a buffer of `defaultBufSize = 4096`
bytes, empty. -/
def NewReader : Reader := { size := 4096, buffered := [], err := none }

/-- The method `(*bufio.Reader).Read` over an underlying `Read` operation `rd`,
for a destination of length `plen`.  The underlying `Read` is taken to keep the
contract of `io.Reader` (it returns no more bytes than it was given room for). -/
def Reader.Read {σ : Type} (rd : Nat → σ → (List Byte × Option Err) × σ) (plen : Nat)
    (b : Reader) (s : σ) : (List Byte × Option Err) × (Reader × σ) :=
  if plen = 0 then
    if 0 < b.buffered.length then (([], none), (b, s))
    else (([], b.err), ({ b with err := none }, s))
  else if b.buffered = [] then
    match b.err with
    | some e => (([], some e), ({ b with err := none }, s))
    | none =>
      if b.size ≤ plen then
        let r := rd plen s
        ((r.1.1, r.1.2), ({ b with err := none }, r.2))
      else
        let r := rd b.size s
        if r.1.1.length = 0 then
          (([], r.1.2), ({ b with buffered := [], err := none }, r.2))
        else
          ((r.1.1.take plen, none),
            ({ b with buffered := r.1.1.drop plen, err := r.1.2 }, r.2))
  else
    ((b.buffered.take plen, none), ({ b with buffered := b.buffered.drop plen }, s))

/-- The operations of `hello` over a connection `conn`: reads go through a
`bufio.Reader` wrapped around `conn`, everything else goes to `conn` itself. -/
def bufioOps {σ : Type} (conn : Ops σ) : Ops (Reader × σ) where
  now st := ((conn.now st.2).1, (st.1, (conn.now st.2).2))
  setReadDeadline d st :=
    ((conn.setReadDeadline d st.2).1, (st.1, (conn.setReadDeadline d st.2).2))
  read plen st := Reader.Read conn.read plen st.1 st.2
  setWriteDeadline d st :=
    ((conn.setWriteDeadline d st.2).1, (st.1, (conn.setWriteDeadline d st.2).2))
  write p st := ((conn.write p st.2).1, (st.1, (conn.write p st.2).2))

/-- The function `hello` (lines 15-49) on a connection whose methods are
`conn`, started in the state `s` of the outside world. -/
def hello {σ : Type} (conn : Ops σ) (fuel : Nat) (s : σ) : Run :=
  helloOn (bufioOps conn) fuel (NewReader, s)

/-! ## Scripted surroundings

A script fixes in advance what every call returns: `clock k` is the reading of
the `k`-th call of `time.Now`, and the other fields give the result of the
`i`-th call of the operation they are named after (counting from 0). -/

/-- A script of I/O outcomes. -/
structure Script where
  clock : Nat → Time
  setReadDeadline : Nat → Option Err
  read : Nat → List Byte × Option Err
  setWriteDeadline : Nat → Option Err
  write : Nat → Nat × Option Err

/-- How many times each operation has been called so far. -/
structure Calls where
  now : Nat
  setReadDeadline : Nat
  read : Nat
  setWriteDeadline : Nat
  write : Nat
  deriving DecidableEq

/-- The state of the calls at the start of iteration `i` (counting from 0) when
all iterations before it were fully successful. -/
def Calls.start (i : Nat) : Calls :=
  { now := 2 * i, setReadDeadline := i, read := i, setWriteDeadline := i, write := i }

/-- The operations that answer from a script, whatever their arguments. -/
def scriptOps (S : Script) : Ops Calls where
  now c := (S.clock c.now, { c with now := c.now + 1 })
  setReadDeadline _ c :=
    (S.setReadDeadline c.setReadDeadline, { c with setReadDeadline := c.setReadDeadline + 1 })
  read _ c := (S.read c.read, { c with read := c.read + 1 })
  setWriteDeadline _ c :=
    (S.setWriteDeadline c.setWriteDeadline, { c with setWriteDeadline := c.setWriteDeadline + 1 })
  write _ c := (S.write c.write, { c with write := c.write + 1 })

/-- The run of the loop and the final `Close` of `hello` on a script. -/
def helloScript (S : Script) (fuel : Nat) : Run :=
  helloOn (scriptOps S) fuel (Calls.start 0)

/-- The script `S` with the bytes its reads deliver replaced by those of `f`;
the errors of the reads are those of `S`. -/
def Script.withReadData (S : Script) (f : Nat → List Byte) : Script :=
  { S with read := fun i => (f i, (S.read i).2) }

/-- Iteration `i` of a script is fully successful: the four operations return
no error and `Write` returns `len(response)`. -/
def Script.ok (S : Script) (i : Nat) : Prop :=
  S.setReadDeadline i = none ∧ (S.read i).2 = none ∧ S.setWriteDeadline i = none ∧
    S.write i = (response.length, none)

instance (S : Script) (i : Nat) : Decidable (S.ok i) := by
  unfold Script.ok; infer_instance

/-- The six events of a fully successful iteration `i` of a script. -/
def successBlock (S : Script) (i : Nat) : List Event :=
  [Event.now (S.clock (2 * i)),
   Event.setReadDeadline (S.clock (2 * i) + 5 * Second) none,
   Event.read bufLen (S.read i).1 none,
   Event.now (S.clock (2 * i + 1)),
   Event.setWriteDeadline (S.clock (2 * i + 1) + 5 * Second) none,
   Event.write response response.length none]

/-- The payloads handed to `conn.Write`, in order. -/
def writesOf : List Event → List (List Byte)
  | [] => []
  | Event.write p _ _ :: rest => p :: writesOf rest
  | _ :: rest => writesOf rest

/-- The byte sequences delivered by the successful reads of a trace, in order. -/
def readsOf : List Event → List (List Byte)
  | [] => []
  | Event.read _ data none :: rest => data :: readsOf rest
  | _ :: rest => readsOf rest

/-- The four I/O operations of an iteration. -/
inductive Op where
  | SetReadDeadline
  | Read
  | SetWriteDeadline
  | Write
  deriving DecidableEq

/-- The I/O operation an event records, if it records one. -/
def opOf : Event → Option Op
  | Event.setReadDeadline _ _ => some Op.SetReadDeadline
  | Event.read _ _ _ => some Op.Read
  | Event.setWriteDeadline _ _ => some Op.SetWriteDeadline
  | Event.write _ _ _ => some Op.Write
  | _ => none

/-- The I/O operations of a trace, in order. -/
def opTrace (tr : List Event) : List Op := tr.filterMap opOf

/-- The operations of one whole iteration, in program order. -/
def iterationOps : List Op :=
  [Op.SetReadDeadline, Op.Read, Op.SetWriteDeadline, Op.Write]

/-- The number of complete payload writes of a trace: calls of `conn.Write`
with `response` that returned `len(response)` and no error. -/
def completeWrites (tr : List Event) : Nat :=
  tr.count (Event.write response response.length none)

/-! ## A client that sends whole requests and waits

The connection of a client that sends its first request when it connects,
sends the next one each time a response has arrived, and otherwise waits.  A
request reaches the server whole: `conn.Read` returns all the bytes that have
arrived, up to the size of the slice it is given.  A `Read` that finds nothing
has nothing to wait for but its deadline and fails with a timeout. -/

/-- The state of the connection and its client. -/
structure Client where
  /-- The current time. -/
  time : Time
  /-- The read deadline last set. -/
  readDeadline : Time
  /-- The bytes that have arrived and have not been read. -/
  inbox : List Byte
  /-- The requests the client has still to send. -/
  todo : List (List Byte)
  deriving DecidableEq

/-- The client has connected and sent its first request. -/
def Client.connect : List (List Byte) → Client
  | [] => { time := 0, readDeadline := 0, inbox := [], todo := [] }
  | r :: rest => { time := 0, readDeadline := 0, inbox := r, todo := rest }

/-- The methods of the connection to such a client, and the clock. -/
def clientConn : Ops Client where
  now c := (c.time, c)
  setReadDeadline d c := (none, { c with readDeadline := d })
  read cap c :=
    if c.inbox = [] then
      (([], some "i/o timeout"), { c with time := max c.time c.readDeadline })
    else
      ((c.inbox.take cap, none), { c with inbox := c.inbox.drop cap })
  setWriteDeadline _ c := (none, c)
  write p c :=
    match c.todo with
    | [] => ((p.length, none), c)
    | r :: rest => ((p.length, none), { c with inbox := c.inbox ++ r, todo := rest })

/-! ## The response as a length-framed message -/

/-- The header part and the body of a message: what stands before its first
empty line (the first two consecutive LF bytes) and what follows it. -/
def splitAtBlankLine : List Byte → Option (List Byte × List Byte)
  | [] => none
  | [_] => none
  | a :: b :: rest =>
    if a = 10 ∧ b = 10 then some ([], rest)
    else (splitAtBlankLine (b :: rest)).map fun hb => (a :: hb.1, hb.2)

/-- The lines of a header part, split at LF bytes. -/
def headerLines : List Byte → List (List Byte)
  | [] => [[]]
  | b :: rest =>
    if b = 10 then [] :: headerLines rest
    else
      match headerLines rest with
      | [] => [[b]]
      | l :: ls => (b :: l) :: ls

/-- The number a sequence of ASCII decimal digits denotes, read from the left
with `acc` as the value so far; `none` if a byte is not a digit. -/
def decimalFrom (acc : Nat) : List Byte → Option Nat
  | [] => some acc
  | b :: rest => if 48 ≤ b ∧ b ≤ 57 then decimalFrom (10 * acc + (b - 48)) rest else none

/-- The value of the `Content-Length` header line of a header part. -/
def contentLength (head : List Byte) : Option Nat :=
  (headerLines head).findSome? fun l =>
    if (goBytes "Content-Length: ").isPrefixOf l ∧ 16 < l.length then
      decimalFrom 0 (l.drop 16)
    else none

/-! ## The dispatcher -/

/-- What `main` does, in program order; `κ` is the type of connections. -/
inductive MainEvent (κ : Type) where
  /-- The evaluation of `os.Args[0]` failed with an index out of range. -/
  | indexPanic
  /-- The call of `log.Fatalf` printed `msg` and ended the process with `os.Exit(1)`. -/
  | logFatalf (msg : String)
  /-- The call `runtime.GOMAXPROCS(n)` was made. -/
  | gomaxprocs (n : Int)
  /-- The runtime ended the process with `fatal error: msg` (exit status 2). -/
  | fatalError (msg : String)
  /-- The call `net.Listen(network, addr)` returned `err`. -/
  | listen (network addr : String) (err : Option Err)
  /-- The call `l.Accept()` returned the connection `conn`. -/
  | accepted (conn : κ)
  /-- The call `l.Accept()` returned the error `err`. -/
  | acceptFailed (err : Err)
  /-- The statement `go hello(conn)` started a handler on `conn`. -/
  | go (conn : κ)
  deriving DecidableEq

/-- How a run of `main` ended. -/
inductive MainExit where
  /-- The process ended with this exit status. -/
  | exit (code : Nat)
  /-- The accept loop was still going when the fuel ran out. -/
  | running
  deriving DecidableEq

/-- What `main` gets from outside: the parser `strconv.Atoi`; for
`runtime.GOMAXPROCS(n)` whether the call returns (`none`) or the runtime ends
the process with a fatal error (`some msg`); the result of `net.Listen` for a
network and an address; and the result of the `i`-th call of `l.Accept`
(counting from 0). -/
structure MainEnv (κ : Type) where
  atoi : String → Except Err Int
  gomaxprocs : Int → Option String
  listen : String → String → Option Err
  accept : Nat → Except Err κ

/-- One iteration of the accept loop (lines 73-77), the `i`-th: its events and,
if it ends the process, the exit status. -/
def acceptOnce {κ : Type} (accept : Nat → Except Err κ) (i : Nat) :
    List (MainEvent κ) × Option Nat :=
  match accept i with
  | Except.error err =>
    ([MainEvent.acceptFailed err, MainEvent.logFatalf ("Accepting failed: " ++ err)], some 1)
  | Except.ok conn => ([MainEvent.accepted conn, MainEvent.go conn], none)

/-- The accept loop (lines 72-78) from its `i`-th iteration on, at most `fuel`
iterations of it. -/
def acceptLoop {κ : Type} (accept : Nat → Except Err κ) :
    Nat → Nat → List (MainEvent κ) × MainExit
  | 0, _ => ([], MainExit.running)
  | fuel + 1, i =>
    match (acceptOnce accept i).2 with
    | some code => ((acceptOnce accept i).1, MainExit.exit code)
    | none =>
      ((acceptOnce accept i).1 ++ (acceptLoop accept fuel (i + 1)).1,
        (acceptLoop accept fuel (i + 1)).2)

/-- The function `main` (lines 51-78) on the argument vector `args`, which is
`os.Args`. -/
def main {κ : Type} (env : MainEnv κ) (fuel : Nat) (args : List String) :
    List (MainEvent κ) × MainExit :=
  if args.length ≠ 4 then
    match args with
    | [] => ([MainEvent.indexPanic], MainExit.exit 2)
    | prog :: _ =>
      ([MainEvent.logFatalf ("Usage: " ++ prog ++ " <HOST-IPV4> <PORT> <GOMAXPROCS>")],
        MainExit.exit 1)
  else
    let host := args.getD 1 ""
    let port := args.getD 2 ""
    match env.atoi (args.getD 3 "") with
    | Except.error err =>
      ([MainEvent.logFatalf ("Failed to parse max procs: " ++ err)], MainExit.exit 1)
    | Except.ok maxProcs =>
      match env.gomaxprocs maxProcs with
      | some msg =>
        ([MainEvent.gomaxprocs maxProcs, MainEvent.fatalError msg], MainExit.exit 2)
      | none =>
        match env.listen "tcp" (host ++ ":" ++ port) with
        | some err =>
          ([MainEvent.gomaxprocs maxProcs,
            MainEvent.listen "tcp" (host ++ ":" ++ port) (some err),
            MainEvent.logFatalf ("Listening failed: " ++ err)], MainExit.exit 1)
        | none =>
          (MainEvent.gomaxprocs maxProcs :: MainEvent.listen "tcp" (host ++ ":" ++ port) none ::
            (acceptLoop env.accept fuel 0).1, (acceptLoop env.accept fuel 0).2)

/-- The connections handed to `go hello(conn)`, in order. -/
def spawned {κ : Type} : List (MainEvent κ) → List κ
  | [] => []
  | MainEvent.go conn :: rest => conn :: spawned rest
  | _ :: rest => spawned rest

/-- The calls of `net.Listen` in a trace: network and address, in order. -/
def listenCalls {κ : Type} : List (MainEvent κ) → List (String × String)
  | [] => []
  | MainEvent.listen network addr _ :: rest => (network, addr) :: listenCalls rest
  | _ :: rest => listenCalls rest

/-! ## The library calls of `main`

`strconv.Atoi` and `runtime.GOMAXPROCS` belong to the Go distribution, not to
the repository.  `main` takes their behaviour from its surroundings; the
definitions below follow the library sources for a platform with a 64-bit
`int` and serve as the surroundings of the sample runs. -/

/-- The digit loop of `strconv.ParseUint` for base 10 and 64 bits, with `n` the
value so far: a character that is not a decimal digit is a syntax error; an
overflow of `n * 10` (when `n` has reached the cutoff `maxUint64/10 + 1`) or of
`n * 10 + d` is a range error, found before the characters that follow are
looked at.  The errors are named by the texts of `ErrSyntax` and `ErrRange`. -/
def parseUintLoop : Nat → List Char → Except String Nat
  | n, [] => Except.ok n
  | n, c :: cs =>
    if '0' ≤ c ∧ c ≤ '9' then
      if 1844674407370955162 ≤ n then Except.error "value out of range"
      else if 18446744073709551615 < n * 10 + (c.toNat - 48) then
        Except.error "value out of range"
      else parseUintLoop (n * 10 + (c.toNat - 48)) cs
    else Except.error "invalid syntax"

/-- The function `strconv.Atoi` for a 64-bit `int`, with the library function
`strconv.Quote`, which the error text uses, as the parameter `quote`.  Its fast
path (fewer than 19 bytes) and its slow path (`ParseInt`, `ParseUint`) give the
same results: an optional sign, then at least one digit, read by
`parseUintLoop`; a value of `2^63` or more, or below `-2^63`, is a range
error. -/
def Atoi (quote : String → String) (s : String) : Except Err Int :=
  let neg : Bool := s.toList.head? = some '-'
  let digits : List Char :=
    match s.toList with
    | '+' :: r => r
    | '-' :: r => r
    | r => r
  if digits = [] then
    Except.error ("strconv.Atoi: parsing " ++ quote s ++ ": invalid syntax")
  else
    match parseUintLoop 0 digits with
    | Except.error kind => Except.error ("strconv.Atoi: parsing " ++ quote s ++ ": " ++ kind)
    | Except.ok un =>
      if neg = false ∧ 9223372036854775808 ≤ un then
        Except.error ("strconv.Atoi: parsing " ++ quote s ++ ": value out of range")
      else if neg = true ∧ 9223372036854775808 < un then
        Except.error ("strconv.Atoi: parsing " ++ quote s ++ ": value out of range")
      else if neg then Except.ok (-(un : Int))
      else Except.ok (un : Int)

/-- The result of `strconv.Quote` on a string of printable ASCII characters
other than the double quote and the backslash: the string between double
quotes.  (The library escapes other characters; that is not modelled.) -/
def plainQuote (s : String) : String := "\"" ++ s ++ "\""

/-- The conversion `int32(n)` of a Go `int`: the low 32 bits, as a signed
number. -/
def toInt32 (n : Int) : Int := (n + 2147483648) % 4294967296 - 2147483648

/-- Whether `runtime.GOMAXPROCS(n)` ends in `throw("procresize: invalid arg")`.
The function returns at once when `n <= 0` or `n` is the current setting;
otherwise it stores `int32(n)` as the new setting, and `procresize` throws when
that number is negative (a new setting of 0 is taken as no change). -/
def gomaxprocsThrows (n : Int) : Bool := decide (0 < n ∧ toInt32 n < 0)

/-! ## The process: the dispatcher and its handlers

`go hello(conn)` starts a handler that runs on its own; the only thing a
handler can do to the rest of the process is to end it, by `log.Fatalln`.  A
process is run along a schedule, a list of steps: a step of the dispatcher is
one iteration of the accept loop; a step of handler `j` lets the `j`-th handler
that was started run `fuel` iterations of its loop on its own connection, whose
I/O outcomes are the script `handlers j`. -/

/-- A step of a schedule. -/
inductive Step where
  | dispatcher
  | handler (j : Nat) (fuel : Nat)
  deriving DecidableEq

/-- What ended the process. -/
inductive ProcExit where
  /-- The `log.Fatalf` of the accept loop. -/
  | acceptFatal
  /-- The `log.Fatalln` of the `j`-th handler. -/
  | handlerFatal (j : Nat)
  deriving DecidableEq

/-- The state of a process whose dispatcher is in its accept loop. -/
structure Proc (κ : Type) where
  /-- The iterations of the accept loop carried out so far. -/
  iterations : Nat
  /-- The trace of the dispatcher. -/
  trace : List (MainEvent κ)
  /-- What ended the process, if it has ended. -/
  ended : Option ProcExit

/-- One step of a process. -/
def Proc.step {κ : Type} (accept : Nat → Except Err κ) (handlers : Nat → Script)
    (p : Proc κ) : Step → Proc κ
  | Step.dispatcher =>
    match p.ended with
    | some _ => p
    | none =>
      { iterations := p.iterations + 1
        trace := p.trace ++ (acceptOnce accept p.iterations).1
        ended := (acceptOnce accept p.iterations).2.map fun _ => ProcExit.acceptFatal }
  | Step.handler j fuel =>
    match p.ended with
    | some _ => p
    | none =>
      if j < (spawned p.trace).length ∧ (helloScript (handlers j) fuel).outcome = Outcome.fatal
      then { p with ended := some (ProcExit.handlerFatal j) }
      else p

/-- The process after a schedule, from the start of the accept loop. -/
def runProcess {κ : Type} (accept : Nat → Except Err κ) (handlers : Nat → Script)
    (sched : List Step) : Proc κ :=
  sched.foldl (Proc.step accept handlers) { iterations := 0, trace := [], ended := none }

/-- The number of dispatcher steps of a schedule. -/
def dispatcherSteps (sched : List Step) : Nat := sched.count Step.dispatcher


/-! ## Sample surroundings -/

/-- A script of two requests, each answered in full, after which the peer closes
the stream. -/
def twoRounds : Script where
  clock k := 1000 * k
  setReadDeadline _ := none
  read i := if i < 2 then (goBytes "GET / HTTP/1.1\n\n", none) else ([], some "EOF")
  setWriteDeadline _ := none
  write _ := (response.length, none)

/-- A script on which every operation succeeds and every `Write` returns `n`
and no error. -/
def writeReturns (n : Nat) : Script where
  clock k := k
  setReadDeadline _ := none
  read _ := ([71], none)
  setWriteDeadline _ := none
  write _ := (n, none)

/-- A script whose first `Write` returns an error after 10 bytes. -/
def writeError : Script where
  clock k := k
  setReadDeadline _ := none
  read _ := ([71], none)
  setWriteDeadline _ := none
  write _ := (10, some "broken pipe")


/-- Surroundings of `main` in which `runtime.GOMAXPROCS` fails by the check of
`procresize` only, `net.Listen` succeeds and two connections, numbered 0 and 1,
arrive before the listener is closed. -/
def sampleEnv : MainEnv Nat where
  atoi := Atoi plainQuote
  gomaxprocs n := if gomaxprocsThrows n then some "procresize: invalid arg" else none
  listen _ _ := none
  accept i := if i < 2 then Except.ok i else Except.error "use of closed network connection"

/-- An `Accept` that returns connection 7 and fails from then on. -/
def acceptOne : Nat → Except Err Nat :=
  fun i => if i = 0 then Except.ok 7 else Except.error "use of closed network connection"


/-- The events of the first `k` iterations of an accept loop whose `i`-th
`Accept` returns the connection `conn i`. -/
def acceptedBlocks {κ : Type} (conn : Nat → κ) (k : Nat) : List (MainEvent κ) :=
  (List.range k).flatMap fun i => [MainEvent.accepted (conn i), MainEvent.go (conn i)]


/-- What is known of a process after any number of steps when the first `n`
calls of `Accept` return `conn 0`, ..., `conn (n-1)` and the next one fails with
`err`: until the accept loop fails its trace is that of the iterations made so
far, all of them successful; once it has failed it has made `n + 1` iterations;
and a handler that ended the process made a short write. -/
def ProcInv {κ : Type} (conn : Nat → κ) (handlers : Nat → Script) (n : Nat) (err : Err)
    (p : Proc κ) : Prop :=
  (p.ended ≠ some ProcExit.acceptFatal →
    p.iterations ≤ n ∧ p.trace = acceptedBlocks conn p.iterations) ∧
  (p.ended = some ProcExit.acceptFatal →
    p.iterations = n + 1 ∧
      p.trace = acceptedBlocks conn n ++
        [MainEvent.acceptFailed err, MainEvent.logFatalf ("Accepting failed: " ++ err)]) ∧
  (∀ j, p.ended = some (ProcExit.handlerFatal j) →
    j < n ∧ ∃ fuel, (helloScript (handlers j) fuel).outcome = Outcome.fatal)


/-! ## Deadlines in a trace -/

/-- Every call of `SetReadDeadline` in a trace comes directly after a reading
`t` of the clock and is passed `t` plus 5 seconds. -/
def ReadDeadlinesFresh (tr : List Event) : Prop :=
  ∀ j d e, tr[j]? = some (Event.setReadDeadline d e) →
    ∃ i t, j = i + 1 ∧ tr[i]? = some (Event.now t) ∧ d = t + 5 * Second

/-- Every call of `SetWriteDeadline` in a trace on the script `S` ends a run of
five events: reading `k` of the clock, the read deadline set from it, a
successful read, reading `k + 1` of the clock, and the write deadline, which is
that reading plus 5 seconds. -/
def WriteDeadlinesFresh (S : Script) (tr : List Event) : Prop :=
  ∀ j d e, tr[j]? = some (Event.setWriteDeadline d e) →
    ∃ i k data, j = i + 4 ∧
      tr[i]? = some (Event.now (S.clock k)) ∧
      tr[i + 1]? = some (Event.setReadDeadline (S.clock k + 5 * Second) none) ∧
      tr[i + 2]? = some (Event.read bufLen data none) ∧
      tr[i + 3]? = some (Event.now (S.clock (k + 1))) ∧
      d = S.clock (k + 1) + 5 * Second


/-! ## Theorems -/

/-! ### The loop on a script -/

theorem helloLoop_ok (S : Script) (i fuel : Nat) (h : S.ok i) :
    helloLoop (scriptOps S) (fuel + 1) (Calls.start i) =
      (successBlock S i ++ (helloLoop (scriptOps S) fuel (Calls.start (i + 1))).1,
        (helloLoop (scriptOps S) fuel (Calls.start (i + 1))).2) := by
  obtain ⟨h1, h2, h3, h4⟩ := h
  have e : (2 * (i + 1)) = 2 * i + 1 + 1 := by omega
  simp [helloLoop, scriptOps, Calls.start, h1, h2, h3, h4, successBlock, e]

theorem helloLoop_not_ok (S : Script) (i fuel : Nat) (h : ¬ S.ok i) :
    helloLoop (scriptOps S) (fuel + 1) (Calls.start i) =
        helloLoop (scriptOps S) 1 (Calls.start i) ∧
      (helloLoop (scriptOps S) 1 (Calls.start i)).2.1 ≠ LoopExit.running := by
  unfold Script.ok at h
  simp only [helloLoop, scriptOps, Calls.start]
  split
  · simp
  · split
    · simp
    · split
      · simp
      · split
        · simp
        · split
          · simp
          · rename_i h1 _ h2 _ h3 _ h4 h5
            simp at h1 h2 h3 h4 h5
            exact absurd ⟨h1, h2, h3, Prod.ext h5 h4⟩ h

theorem helloLoop_prefix (S : Script) :
    ∀ (K i fuel : Nat), (∀ j, j < K → S.ok (i + j)) →
      helloLoop (scriptOps S) (K + fuel) (Calls.start i) =
        ((List.range K).flatMap (fun j => successBlock S (i + j)) ++
            (helloLoop (scriptOps S) fuel (Calls.start (i + K))).1,
          (helloLoop (scriptOps S) fuel (Calls.start (i + K))).2) := by
  intro K
  induction K with
  | zero => intro i fuel _; simp
  | succ K ih =>
    intro i fuel h
    have h0 : S.ok i := by simpa using h 0 (Nat.succ_pos K)
    have hrest : ∀ j, j < K → S.ok (i + 1 + j) := by
      intro j hj
      have := h (j + 1) (Nat.succ_lt_succ hj)
      rwa [show i + (j + 1) = i + 1 + j by omega] at this
    have e1 : K + 1 + fuel = (K + fuel) + 1 := by omega
    rw [e1, helloLoop_ok S i (K + fuel) h0, ih (i + 1) fuel hrest]
    have e2 : i + 1 + K = i + (K + 1) := by omega
    simp only [e2, List.range_succ_eq_map, List.flatMap_cons, List.flatMap_map, Nat.add_zero,
      List.append_assoc]
    have e3 : (fun a : Nat => successBlock S (i + a.succ)) =
        fun j => successBlock S (i + 1 + j) := by
      funext a
      rw [show i + a.succ = i + 1 + a by omega]
    rw [e3]

/-! ### The response payload -/

/-- C2, as the code has it: the payload is 48 bytes long (not 52), and the
short-write check compares against 48: a `Write` that returns `n` and no error
ends the process exactly when `n` is not 48. -/
theorem response_length_48 :
    response.length = 48 ∧
      ∀ n, (helloScript (writeReturns n) 1).outcome = Outcome.fatal ↔ n ≠ 48 := by
  refine ⟨by decide, fun n => ?_⟩
  have h48 : response.length = 48 := by decide
  by_cases h : n = 48
  · subst h
    simp [helloScript, helloOn, helloLoop, scriptOps, writeReturns, Calls.start, h48]
  · simp [helloScript, helloOn, helloLoop, scriptOps, writeReturns, Calls.start, h48, h]

/-- C2 fails as stated: the payload is not 52 bytes long, and a `Write` that
returns 52 is taken for a short write. -/
theorem response_length_ne_52 :
    response.length ≠ 52 ∧ (helloScript (writeReturns 52) 1).outcome = Outcome.fatal := by
  decide

/-- C10: the payload splits at its first empty line into a header part whose
`Content-Length` line says 12 and a body of exactly 12 bytes, `Hello world!`,
and the payload ends with that body: nothing follows it. -/
theorem response_length_framed :
    splitAtBlankLine response =
        some (goBytes "HTTP/1.1 200 OK\nContent-Length: 12", goBytes "Hello world!") ∧
      contentLength (goBytes "HTTP/1.1 200 OK\nContent-Length: 12") = some 12 ∧
      (goBytes "Hello world!").length = 12 ∧
      response = goBytes "HTTP/1.1 200 OK\nContent-Length: 12" ++ [10, 10] ++
        goBytes "Hello world!" ∧
      response.drop (response.length - 12) = goBytes "Hello world!" := by
  decide

/-! ### What every run writes -/

theorem helloLoop_write_mem {σ : Type} (ops : Ops σ) :
    ∀ (fuel : Nat) (s : σ) (p : List Byte) (n : Nat) (e : Option Err),
      Event.write p n e ∈ (helloLoop ops fuel s).1 → p = response := by
  intro fuel
  induction fuel with
  | zero => intro s p n e h; simp [helloLoop] at h
  | succ fuel ih =>
    intro s p n e h
    simp only [helloLoop] at h
    split at h
    · simp at h
    · split at h
      · simp at h
      · split at h
        · simp at h
        · split at h
          · simp at h; exact h.1
          · split at h
            · simp at h; exact h.1
            · simp at h
              rcases h with h | h
              · exact h.1
              · exact ih _ p n e h

theorem helloOn_broke {σ : Type} (ops : Ops σ) (fuel : Nat) (s : σ)
    (h : (helloLoop ops fuel s).2.1 = LoopExit.broke) :
    helloOn ops fuel s =
      { trace := (helloLoop ops fuel s).1 ++ [Event.close], outcome := Outcome.returned } := by
  simp only [helloOn, h]

theorem helloOn_fatal {σ : Type} (ops : Ops σ) (fuel : Nat) (s : σ)
    (h : (helloLoop ops fuel s).2.1 = LoopExit.fatal) :
    helloOn ops fuel s = { trace := (helloLoop ops fuel s).1, outcome := Outcome.fatal } := by
  simp only [helloOn, h]

theorem helloOn_running {σ : Type} (ops : Ops σ) (fuel : Nat) (s : σ)
    (h : (helloLoop ops fuel s).2.1 = LoopExit.running) :
    helloOn ops fuel s = { trace := (helloLoop ops fuel s).1, outcome := Outcome.running } := by
  simp only [helloOn, h]

theorem helloOn_trace_mem {σ : Type} (ops : Ops σ) (fuel : Nat) (s : σ) (ev : Event)
    (h : ev ∈ (helloOn ops fuel s).trace) :
    ev ∈ (helloLoop ops fuel s).1 ∨ ev = Event.close := by
  cases hx : (helloLoop ops fuel s).2.1 <;> simp only [helloOn, hx] at h
  · simpa using h
  · exact Or.inl h
  · exact Or.inl h

theorem writesOf_append_close (tr : List Event) :
    writesOf (tr ++ [Event.close]) = writesOf tr := by
  induction tr with
  | nil => simp [writesOf]
  | cons ev tr ih => cases ev <;> simp [writesOf, ih]

theorem readsOf_append_close (tr : List Event) :
    readsOf (tr ++ [Event.close]) = readsOf tr := by
  induction tr with
  | nil => simp [readsOf]
  | cons ev tr ih =>
    cases ev with
    | read cap data err => cases err <;> simp [readsOf, ih]
    | _ => simp [readsOf, ih]

theorem loop_ignores_read_data (S : Script) (f : Nat → List Byte) :
    ∀ (fuel : Nat) (c : Calls),
      writesOf (helloLoop (scriptOps (S.withReadData f)) fuel c).1 =
          writesOf (helloLoop (scriptOps S) fuel c).1 ∧
        (helloLoop (scriptOps (S.withReadData f)) fuel c).2 =
          (helloLoop (scriptOps S) fuel c).2 := by
  intro fuel
  induction fuel with
  | zero => intro c; simp [helloLoop]
  | succ fuel ih =>
    intro c
    cases h1 : S.setReadDeadline c.setReadDeadline with
    | some err => simp [helloLoop, scriptOps, Script.withReadData, h1, writesOf]
    | none =>
      cases h2 : (S.read c.read).2 with
      | some err => simp [helloLoop, scriptOps, Script.withReadData, h1, h2, writesOf]
      | none =>
        cases h3 : S.setWriteDeadline c.setWriteDeadline with
        | some err => simp [helloLoop, scriptOps, Script.withReadData, h1, h2, h3, writesOf]
        | none =>
          cases h4 : (S.write c.write).2 with
          | some err =>
            simp [helloLoop, scriptOps, Script.withReadData, h1, h2, h3, h4, writesOf]
          | none =>
            by_cases h5 : (S.write c.write).1 = response.length
            · have := ih { now := c.now + 1 + 1, setReadDeadline := c.setReadDeadline + 1,
                           read := c.read + 1, setWriteDeadline := c.setWriteDeadline + 1,
                           write := c.write + 1 }
              simp only [scriptOps, Script.withReadData] at this
              simp [helloLoop, scriptOps, Script.withReadData, h1, h2, h3, h4, h5, writesOf,
                this.1, this.2]
            · simp [helloLoop, scriptOps, Script.withReadData, h1, h2, h3, h4, h5, writesOf]

theorem helloScript_ignores_read_data (S : Script) (f : Nat → List Byte) (fuel : Nat) :
    writesOf (helloScript (S.withReadData f) fuel).trace =
        writesOf (helloScript S fuel).trace ∧
      (helloScript (S.withReadData f) fuel).outcome = (helloScript S fuel).outcome := by
  have h := loop_ignores_read_data S f fuel (Calls.start 0)
  have h2 : (helloLoop (scriptOps (S.withReadData f)) fuel (Calls.start 0)).2.1 =
      (helloLoop (scriptOps S) fuel (Calls.start 0)).2.1 := by rw [h.2]
  unfold helloScript
  cases hx : (helloLoop (scriptOps S) fuel (Calls.start 0)).2.1
  · rw [helloOn_broke _ _ _ hx, helloOn_broke _ _ _ (h2.trans hx)]
    simp only [writesOf_append_close, h.1, and_self]
  · rw [helloOn_fatal _ _ _ hx, helloOn_fatal _ _ _ (h2.trans hx)]
    exact ⟨h.1, rfl⟩
  · rw [helloOn_running _ _ _ hx, helloOn_running _ _ _ (h2.trans hx)]
    exact ⟨h.1, rfl⟩

/-- C1: whatever the surroundings do (so whatever bytes, and however many, the
reads deliver), every call of `conn.Write` in every iteration of a run passes
exactly the bytes of `HTTP/1.1 200 OK`, LF, `Content-Length: 12`, LF, LF,
`Hello world!`, which contain no CR byte; and replacing the bytes that the
reads of a script deliver by any others leaves the sequence of written
payloads as it was. -/
theorem write_payload_fixed {σ : Type} (ops : Ops σ) (fuel : Nat) (s : σ)
    (p : List Byte) (n : Nat) (e : Option Err)
    (h : Event.write p n e ∈ (helloOn ops fuel s).trace) :
    p = [72, 84, 84, 80, 47, 49, 46, 49, 32, 50, 48, 48, 32, 79, 75, 10,
         67, 111, 110, 116, 101, 110, 116, 45, 76, 101, 110, 103, 116, 104, 58, 32, 49, 50, 10,
         10,
         72, 101, 108, 108, 111, 32, 119, 111, 114, 108, 100, 33] ∧
      13 ∉ p ∧
      ∀ (S : Script) (f : Nat → List Byte) (k : Nat),
        writesOf (helloScript (S.withReadData f) k).trace =
          writesOf (helloScript S k).trace := by
  have hp : p = response := by
    rcases helloOn_trace_mem ops fuel s _ h with h1 | h1
    · exact helloLoop_write_mem ops fuel s p n e h1
    · cases h1
  subst hp
  exact ⟨by decide, by decide, fun S f k => (helloScript_ignores_read_data S f k).1⟩

/-- A run in which `Write` is called: the first round of `twoRounds`. -/
theorem write_payload_fixed_witness :
    response = [72, 84, 84, 80, 47, 49, 46, 49, 32, 50, 48, 48, 32, 79, 75, 10,
         67, 111, 110, 116, 101, 110, 116, 45, 76, 101, 110, 103, 116, 104, 58, 32, 49, 50, 10,
         10,
         72, 101, 108, 108, 111, 32, 119, 111, 114, 108, 100, 33] ∧
      13 ∉ response :=
  ⟨(write_payload_fixed (scriptOps twoRounds) 3 (Calls.start 0) response 48 none
      (by decide)).1,
    (write_payload_fixed (scriptOps twoRounds) 3 (Calls.start 0) response 48 none
      (by decide)).2.1⟩

/-! ### The failing iteration of a script -/

theorem failing_iteration (S : Script) (k : Nat) (h : ¬ S.ok k) :
    (∃ err, S.setReadDeadline k = some err ∧
      (helloLoop (scriptOps S) 1 (Calls.start k)).1 =
        [Event.now (S.clock (2 * k)),
         Event.setReadDeadline (S.clock (2 * k) + 5 * Second) (some err),
         Event.logPrintf ("Setting read deadline failed: " ++ err)] ∧
      (helloLoop (scriptOps S) 1 (Calls.start k)).2.1 = LoopExit.broke) ∨
    (∃ err, S.setReadDeadline k = none ∧ (S.read k).2 = some err ∧
      (helloLoop (scriptOps S) 1 (Calls.start k)).1 =
        [Event.now (S.clock (2 * k)),
         Event.setReadDeadline (S.clock (2 * k) + 5 * Second) none,
         Event.read bufLen (S.read k).1 (some err),
         Event.logPrintf ("Reading failed: " ++ err)] ∧
      (helloLoop (scriptOps S) 1 (Calls.start k)).2.1 = LoopExit.broke) ∨
    (∃ err, S.setReadDeadline k = none ∧ (S.read k).2 = none ∧
      S.setWriteDeadline k = some err ∧
      (helloLoop (scriptOps S) 1 (Calls.start k)).1 =
        [Event.now (S.clock (2 * k)),
         Event.setReadDeadline (S.clock (2 * k) + 5 * Second) none,
         Event.read bufLen (S.read k).1 none,
         Event.now (S.clock (2 * k + 1)),
         Event.setWriteDeadline (S.clock (2 * k + 1) + 5 * Second) (some err),
         Event.logPrintf ("Setting write deadline failed: " ++ err)] ∧
      (helloLoop (scriptOps S) 1 (Calls.start k)).2.1 = LoopExit.broke) ∨
    (∃ err, S.setReadDeadline k = none ∧ (S.read k).2 = none ∧
      S.setWriteDeadline k = none ∧ (S.write k).2 = some err ∧
      (helloLoop (scriptOps S) 1 (Calls.start k)).1 =
        [Event.now (S.clock (2 * k)),
         Event.setReadDeadline (S.clock (2 * k) + 5 * Second) none,
         Event.read bufLen (S.read k).1 none,
         Event.now (S.clock (2 * k + 1)),
         Event.setWriteDeadline (S.clock (2 * k + 1) + 5 * Second) none,
         Event.write response (S.write k).1 (some err),
         Event.logPrintf ("Writing failed: " ++ err)] ∧
      (helloLoop (scriptOps S) 1 (Calls.start k)).2.1 = LoopExit.broke) ∨
    (S.setReadDeadline k = none ∧ (S.read k).2 = none ∧
      S.setWriteDeadline k = none ∧ (S.write k).2 = none ∧
      (S.write k).1 ≠ response.length ∧
      (helloLoop (scriptOps S) 1 (Calls.start k)).1 =
        [Event.now (S.clock (2 * k)),
         Event.setReadDeadline (S.clock (2 * k) + 5 * Second) none,
         Event.read bufLen (S.read k).1 none,
         Event.now (S.clock (2 * k + 1)),
         Event.setWriteDeadline (S.clock (2 * k + 1) + 5 * Second) none,
         Event.write response (S.write k).1 none,
         Event.logFatalln "Writing failed"] ∧
      (helloLoop (scriptOps S) 1 (Calls.start k)).2.1 = LoopExit.fatal) := by
  cases h1 : S.setReadDeadline k with
  | some err =>
    left
    exact ⟨err, rfl, by simp [helloLoop, scriptOps, Calls.start, h1]⟩
  | none =>
    right
    cases h2 : (S.read k).2 with
    | some err =>
      left
      exact ⟨err, rfl, rfl, by simp [helloLoop, scriptOps, Calls.start, h1, h2]⟩
    | none =>
      right
      cases h3 : S.setWriteDeadline k with
      | some err =>
        left
        exact ⟨err, rfl, rfl, rfl, by simp [helloLoop, scriptOps, Calls.start, h1, h2, h3]⟩
      | none =>
        right
        cases h4 : (S.write k).2 with
        | some err =>
          left
          exact ⟨err, rfl, rfl, rfl, rfl,
            by simp [helloLoop, scriptOps, Calls.start, h1, h2, h3, h4]⟩
        | none =>
          right
          have h5 : (S.write k).1 ≠ response.length := by
            intro h5
            exact h ⟨h1, h2, h3, Prod.ext h5 h4⟩
          exact ⟨rfl, rfl, rfl, rfl, h5,
            by simp [helloLoop, scriptOps, Calls.start, h1, h2, h3, h4, h5]⟩

theorem script_loop_run (S : Script) (K fuel : Nat) (hok : ∀ j, j < K → S.ok j)
    (hfail : ¬ S.ok K) (hfuel : K < fuel) :
    helloLoop (scriptOps S) fuel (Calls.start 0) =
      ((List.range K).flatMap (successBlock S) ++
          (helloLoop (scriptOps S) 1 (Calls.start K)).1,
        (helloLoop (scriptOps S) 1 (Calls.start K)).2) := by
  obtain ⟨f, rfl⟩ : ∃ f, fuel = K + (f + 1) := ⟨fuel - K - 1, by omega⟩
  have h := helloLoop_prefix S K 0 (f + 1) (by simpa using hok)
  simp only [Nat.zero_add] at h
  rw [h, (helloLoop_not_ok S K f hfail).1]

theorem script_loop_running (S : Script) (K : Nat) (hok : ∀ j, j < K → S.ok j) :
    helloLoop (scriptOps S) K (Calls.start 0) =
      ((List.range K).flatMap (successBlock S), LoopExit.running, Calls.start K) := by
  have h := helloLoop_prefix S K 0 0 (by simpa using hok)
  simp only [Nat.zero_add, Nat.add_zero] at h
  rw [h]
  simp [helloLoop]

theorem helloScript_running (S : Script) (K : Nat) (hok : ∀ j, j < K → S.ok j) :
    helloScript S K =
      { trace := (List.range K).flatMap (successBlock S), outcome := Outcome.running } := by
  unfold helloScript
  rw [helloOn_running _ _ _ (by rw [script_loop_running S K hok]), script_loop_running S K hok]

theorem helloScript_cases (S : Script) (K fuel : Nat) (hok : ∀ j, j < K → S.ok j)
    (hfail : ¬ S.ok K) (hfuel : K < fuel) :
    (∃ err, S.setReadDeadline K = some err ∧
      helloScript S fuel =
        { trace := (List.range K).flatMap (successBlock S) ++
            [Event.now (S.clock (2 * K)),
             Event.setReadDeadline (S.clock (2 * K) + 5 * Second) (some err),
             Event.logPrintf ("Setting read deadline failed: " ++ err),
             Event.close],
          outcome := Outcome.returned }) ∨
    (∃ err, S.setReadDeadline K = none ∧ (S.read K).2 = some err ∧
      helloScript S fuel =
        { trace := (List.range K).flatMap (successBlock S) ++
            [Event.now (S.clock (2 * K)),
             Event.setReadDeadline (S.clock (2 * K) + 5 * Second) none,
             Event.read bufLen (S.read K).1 (some err),
             Event.logPrintf ("Reading failed: " ++ err),
             Event.close],
          outcome := Outcome.returned }) ∨
    (∃ err, S.setReadDeadline K = none ∧ (S.read K).2 = none ∧
      S.setWriteDeadline K = some err ∧
      helloScript S fuel =
        { trace := (List.range K).flatMap (successBlock S) ++
            [Event.now (S.clock (2 * K)),
             Event.setReadDeadline (S.clock (2 * K) + 5 * Second) none,
             Event.read bufLen (S.read K).1 none,
             Event.now (S.clock (2 * K + 1)),
             Event.setWriteDeadline (S.clock (2 * K + 1) + 5 * Second) (some err),
             Event.logPrintf ("Setting write deadline failed: " ++ err),
             Event.close],
          outcome := Outcome.returned }) ∨
    (∃ err, S.setReadDeadline K = none ∧ (S.read K).2 = none ∧
      S.setWriteDeadline K = none ∧ (S.write K).2 = some err ∧
      helloScript S fuel =
        { trace := (List.range K).flatMap (successBlock S) ++
            [Event.now (S.clock (2 * K)),
             Event.setReadDeadline (S.clock (2 * K) + 5 * Second) none,
             Event.read bufLen (S.read K).1 none,
             Event.now (S.clock (2 * K + 1)),
             Event.setWriteDeadline (S.clock (2 * K + 1) + 5 * Second) none,
             Event.write response (S.write K).1 (some err),
             Event.logPrintf ("Writing failed: " ++ err),
             Event.close],
          outcome := Outcome.returned }) ∨
    (S.setReadDeadline K = none ∧ (S.read K).2 = none ∧
      S.setWriteDeadline K = none ∧ (S.write K).2 = none ∧
      (S.write K).1 ≠ response.length ∧
      helloScript S fuel =
        { trace := (List.range K).flatMap (successBlock S) ++
            [Event.now (S.clock (2 * K)),
             Event.setReadDeadline (S.clock (2 * K) + 5 * Second) none,
             Event.read bufLen (S.read K).1 none,
             Event.now (S.clock (2 * K + 1)),
             Event.setWriteDeadline (S.clock (2 * K + 1) + 5 * Second) none,
             Event.write response (S.write K).1 none,
             Event.logFatalln "Writing failed"],
          outcome := Outcome.fatal }) := by
  have hrun := script_loop_run S K fuel hok hfail hfuel
  unfold helloScript
  rcases failing_iteration S K hfail with
    ⟨err, h1, htr, hex⟩ | ⟨err, h1, h2, htr, hex⟩ | ⟨err, h1, h2, h3, htr, hex⟩ |
    ⟨err, h1, h2, h3, h4, htr, hex⟩ | ⟨h1, h2, h3, h4, h5, htr, hex⟩
  · refine Or.inl ⟨err, h1, ?_⟩
    rw [helloOn_broke _ _ _ (by rw [hrun]; exact hex), hrun, htr]
    simp
  · refine Or.inr (Or.inl ⟨err, h1, h2, ?_⟩)
    rw [helloOn_broke _ _ _ (by rw [hrun]; exact hex), hrun, htr]
    simp
  · refine Or.inr (Or.inr (Or.inl ⟨err, h1, h2, h3, ?_⟩))
    rw [helloOn_broke _ _ _ (by rw [hrun]; exact hex), hrun, htr]
    simp
  · refine Or.inr (Or.inr (Or.inr (Or.inl ⟨err, h1, h2, h3, h4, ?_⟩)))
    rw [helloOn_broke _ _ _ (by rw [hrun]; exact hex), hrun, htr]
    simp
  · refine Or.inr (Or.inr (Or.inr (Or.inr ⟨h1, h2, h3, h4, h5, ?_⟩)))
    rw [helloOn_fatal _ _ _ (by rw [hrun]; exact hex), hrun, htr]

/-! ### Facts about the successful iterations -/

theorem blocks_mem (S : Script) (K : Nat) (ev : Event)
    (h : ev ∈ (List.range K).flatMap (successBlock S)) :
    (∃ t, ev = Event.now t) ∨ (∃ d, ev = Event.setReadDeadline d none) ∨
      (∃ data, ev = Event.read bufLen data none) ∨ (∃ d, ev = Event.setWriteDeadline d none) ∨
      ev = Event.write response response.length none := by
  rw [List.mem_flatMap] at h
  obtain ⟨j, _, hj⟩ := h
  simp only [successBlock, List.mem_cons, List.mem_singleton, List.not_mem_nil, or_false] at hj
  rcases hj with h | h | h | h | h | h
  · exact Or.inl ⟨_, h⟩
  · exact Or.inr (Or.inl ⟨_, h⟩)
  · exact Or.inr (Or.inr (Or.inl ⟨_, h⟩))
  · exact Or.inl ⟨_, h⟩
  · exact Or.inr (Or.inr (Or.inr (Or.inl ⟨_, h⟩)))
  · exact Or.inr (Or.inr (Or.inr (Or.inr h)))

theorem blocks_no_close (S : Script) (K : Nat) :
    Event.close ∉ (List.range K).flatMap (successBlock S) := by
  intro h
  rcases blocks_mem S K _ h with ⟨_, h⟩ | ⟨_, h⟩ | ⟨_, h⟩ | ⟨_, h⟩ | h <;> cases h

theorem blocks_no_log (S : Script) (K : Nat) (msg : String) :
    Event.logPrintf msg ∉ (List.range K).flatMap (successBlock S) ∧
      Event.logFatalln msg ∉ (List.range K).flatMap (successBlock S) := by
  constructor <;> intro h <;>
    rcases blocks_mem S K _ h with ⟨_, h⟩ | ⟨_, h⟩ | ⟨_, h⟩ | ⟨_, h⟩ | h <;> cases h

theorem blocks_completeWrites (S : Script) (K : Nat) :
    completeWrites ((List.range K).flatMap (successBlock S)) = K := by
  induction K with
  | zero => simp [completeWrites]
  | succ K ih =>
    unfold completeWrites at ih ⊢
    rw [List.range_succ, List.flatMap_append, List.count_append, ih]
    simp [successBlock, List.count_cons]

theorem blocks_opTrace (S : Script) (K : Nat) :
    opTrace ((List.range K).flatMap (successBlock S)) =
      (List.range K).flatMap (fun _ => iterationOps) := by
  induction K with
  | zero => simp [opTrace]
  | succ K ih =>
    unfold opTrace at ih ⊢
    rw [List.range_succ, List.flatMap_append, List.flatMap_append, List.filterMap_append, ih]
    simp [successBlock, opOf, iterationOps]

/-! ### The state machine of the handler -/

/-- C4: on a script whose iterations `0 .. K-1` are fully successful and whose
iteration `K` fails, a run with more than `K` units of fuel consists of the `K`
successful iterations, each the six events of `successBlock`, followed by a
last part without a complete write; it makes exactly `K` complete payload
writes; its I/O operations are `K` repetitions of SetReadDeadline, Read,
SetWriteDeadline, Write followed by the first `m` of these four, `m` from 1 to
4; it has left the loop, while after `f ≤ K` iterations the loop is still
going; and the loop is still going after iteration `i ≤ K` exactly when that
iteration was fully successful. -/
theorem loop_leaves_at_first_failure (S : Script) (K fuel : Nat)
    (hok : ∀ j, j < K → S.ok j) (hfail : ¬ S.ok K) (hfuel : K < fuel) :
    (∃ last, (helloScript S fuel).trace = (List.range K).flatMap (successBlock S) ++ last ∧
        completeWrites last = 0) ∧
      completeWrites (helloScript S fuel).trace = K ∧
      (∃ m, 1 ≤ m ∧ m ≤ 4 ∧
        opTrace (helloScript S fuel).trace =
          (List.range K).flatMap (fun _ => iterationOps) ++ iterationOps.take m) ∧
      (helloScript S fuel).outcome ≠ Outcome.running ∧
      (∀ f, f ≤ K → helloScript S f =
        { trace := (List.range f).flatMap (successBlock S), outcome := Outcome.running }) ∧
      (∀ i, i ≤ K → ((helloScript S (i + 1)).outcome = Outcome.running ↔ S.ok i)) := by
  have hb := blocks_completeWrites S K
  have ho := blocks_opTrace S K
  unfold completeWrites at hb
  unfold opTrace at ho
  have hrunning : ∀ f, f ≤ K → helloScript S f =
      { trace := (List.range f).flatMap (successBlock S), outcome := Outcome.running } :=
    fun f hf => helloScript_running S f (fun j hj => hok j (by omega))
  have hleft : ∀ f, K < f → (helloScript S f).outcome ≠ Outcome.running := by
    intro f hf
    rcases helloScript_cases S K f hok hfail hf with
      ⟨err, _, heq⟩ | ⟨err, _, _, heq⟩ | ⟨err, _, _, _, heq⟩ |
      ⟨err, _, _, _, _, heq⟩ | ⟨_, _, _, _, _, heq⟩ <;> rw [heq] <;> simp
  have hmain : (∃ last, (helloScript S fuel).trace =
        (List.range K).flatMap (successBlock S) ++ last ∧ completeWrites last = 0) ∧
      completeWrites (helloScript S fuel).trace = K ∧
      (∃ m, 1 ≤ m ∧ m ≤ 4 ∧
        opTrace (helloScript S fuel).trace =
          (List.range K).flatMap (fun _ => iterationOps) ++ iterationOps.take m) := by
    rcases helloScript_cases S K fuel hok hfail hfuel with
      ⟨err, _, heq⟩ | ⟨err, _, _, heq⟩ | ⟨err, _, _, _, heq⟩ |
      ⟨err, _, _, _, _, heq⟩ | ⟨_, _, _, _, h5, heq⟩
    · rw [heq]
      refine ⟨⟨_, rfl, by simp [completeWrites, List.count_cons]⟩, ?_, 1, by omega, by omega, ?_⟩
      · simp only [completeWrites, List.count_append, hb]
        simp [List.count_cons]
      · simp only [opTrace, List.filterMap_append, ho]
        simp [opOf, iterationOps]
    · rw [heq]
      refine ⟨⟨_, rfl, by simp [completeWrites, List.count_cons]⟩, ?_, 2, by omega, by omega, ?_⟩
      · simp only [completeWrites, List.count_append, hb]
        simp [List.count_cons]
      · simp only [opTrace, List.filterMap_append, ho]
        simp [opOf, iterationOps]
    · rw [heq]
      refine ⟨⟨_, rfl, by simp [completeWrites, List.count_cons]⟩, ?_, 3, by omega, by omega, ?_⟩
      · simp only [completeWrites, List.count_append, hb]
        simp [List.count_cons]
      · simp only [opTrace, List.filterMap_append, ho]
        simp [opOf, iterationOps]
    · rw [heq]
      refine ⟨⟨_, rfl, by simp [completeWrites, List.count_cons]⟩, ?_, 4, by omega, by omega, ?_⟩
      · simp only [completeWrites, List.count_append, hb]
        simp [List.count_cons]
      · simp only [opTrace, List.filterMap_append, ho]
        simp [opOf, iterationOps]
    · rw [heq]
      have h5b : ¬ response.length = (S.write K).1 := fun h => h5 h.symm
      refine ⟨⟨_, rfl, by simp [completeWrites, List.count_cons, h5, h5b]⟩, ?_,
        4, by omega, by omega, ?_⟩
      · simp only [completeWrites, List.count_append, hb]
        simp [List.count_cons, h5, h5b]
      · simp only [opTrace, List.filterMap_append, ho]
        simp [opOf, iterationOps]
  refine ⟨hmain.1, hmain.2.1, hmain.2.2, hleft fuel hfuel, hrunning, ?_⟩
  intro i hi
  rcases Nat.lt_or_eq_of_le hi with hlt | heq
  · have := hrunning (i + 1) hlt
    rw [this]
    simp [hok i hlt]
  · subst heq
    constructor
    · intro h
      exact absurd h (hleft (i + 1) (Nat.lt_succ_self i))
    · intro h
      exact absurd h hfail

/-- The script `twoRounds`: two successful iterations, then a failed read. -/
theorem loop_leaves_at_first_failure_witness :
    completeWrites (helloScript twoRounds 5).trace = 2 ∧
      (helloScript twoRounds 5).outcome ≠ Outcome.running :=
  ⟨(loop_leaves_at_first_failure twoRounds 2 5 (by decide) (by decide) (by decide)).2.1,
    (loop_leaves_at_first_failure twoRounds 2 5 (by decide) (by decide) (by decide)).2.2.2.1⟩

/-! ### How a failing iteration ends -/

/-- C5: on a script whose iterations `0 .. K-1` are fully successful and whose
iteration `K` fails, the run ends the process (outcome `fatal`, with the
`log.Fatalln` line) exactly when in iteration `K` both deadline setters and the
read succeed and `Write` returns no error and a count other than
`len(response)`; it returns normally exactly when one of the four operations
returns an error, and then it has logged one line with `log.Printf` and never
called `log.Fatalln`.  So a `Write` that returns an error, whatever its count,
makes the run return. -/
theorem failure_asymmetry (S : Script) (K fuel : Nat)
    (hok : ∀ j, j < K → S.ok j) (hfail : ¬ S.ok K) (hfuel : K < fuel) :
    ((helloScript S fuel).outcome = Outcome.fatal ↔
        (S.setReadDeadline K = none ∧ (S.read K).2 = none ∧ S.setWriteDeadline K = none ∧
          (S.write K).2 = none ∧ (S.write K).1 ≠ response.length)) ∧
      ((helloScript S fuel).outcome = Outcome.returned ↔
        (S.setReadDeadline K ≠ none ∨ (S.read K).2 ≠ none ∨ S.setWriteDeadline K ≠ none ∨
          (S.write K).2 ≠ none)) ∧
      ((helloScript S fuel).outcome = Outcome.returned →
        (∃ msg, Event.logPrintf msg ∈ (helloScript S fuel).trace) ∧
          ∀ msg, Event.logFatalln msg ∉ (helloScript S fuel).trace) ∧
      ((helloScript S fuel).outcome = Outcome.fatal →
        Event.logFatalln "Writing failed" ∈ (helloScript S fuel).trace) ∧
      (S.setReadDeadline K = none → (S.read K).2 = none → S.setWriteDeadline K = none →
        ∀ err, (S.write K).2 = some err → (helloScript S fuel).outcome = Outcome.returned) := by
  have hnf : ∀ msg, Event.logFatalln msg ∉ (List.range K).flatMap (successBlock S) :=
    fun msg => (blocks_no_log S K msg).2
  rcases helloScript_cases S K fuel hok hfail hfuel with
    ⟨err, h1, heq⟩ | ⟨err, h1, h2, heq⟩ | ⟨err, h1, h2, h3, heq⟩ |
    ⟨err, h1, h2, h3, h4, heq⟩ | ⟨h1, h2, h3, h4, h5, heq⟩
  · rw [heq]
    simp [h1, hnf]
  · rw [heq]
    simp [h1, h2, hnf]
  · rw [heq]
    simp [h1, h2, h3, hnf]
  · rw [heq]
    simp [h1, h2, h3, h4, hnf]
  · rw [heq]
    simp [h1, h2, h3, h4, h5]

/-- The script `writeError`: its first `Write` returns an error after 10 of the
48 bytes, and the run returns. -/
theorem failure_asymmetry_witness :
    (helloScript writeError 1).outcome = Outcome.returned :=
  (failure_asymmetry writeError 0 1 (by decide) (by decide) (by decide)).2.2.2.2
    rfl rfl rfl "broken pipe" rfl

/-! ### Closing the connection -/

/-- C6 fails as stated: on the script `writeReturns 10` the first `Write` is
short, the run ends in `log.Fatalln`, and `conn.Close` has not been called. -/
theorem short_write_skips_close :
    (helloScript (writeReturns 10) 3).outcome = Outcome.fatal ∧
      Event.close ∉ (helloScript (writeReturns 10) 3).trace ∧
      (helloScript (writeReturns 10) 3).trace.getLast? =
        some (Event.logFatalln "Writing failed") := by
  decide

/-- C6, as the code has it: on a script whose iterations `0 .. K-1` are fully
successful and whose iteration `K` fails, the run stops, and if it stops
through one of the four `break` statements (an error from SetReadDeadline, Read,
SetWriteDeadline or Write) it returns after calling `conn.Close` exactly once,
as its last operation; if it stops through a short write, `log.Fatalln` is its
last operation and `conn.Close` is not called. -/
theorem close_on_every_break (S : Script) (K fuel : Nat)
    (hok : ∀ j, j < K → S.ok j) (hfail : ¬ S.ok K) (hfuel : K < fuel) :
    ((helloScript S fuel).outcome = Outcome.returned ∨
        (helloScript S fuel).outcome = Outcome.fatal) ∧
      ((S.setReadDeadline K ≠ none ∨ (S.read K).2 ≠ none ∨ S.setWriteDeadline K ≠ none ∨
          (S.write K).2 ≠ none) →
        (helloScript S fuel).outcome = Outcome.returned ∧
          (helloScript S fuel).trace.count Event.close = 1 ∧
          (helloScript S fuel).trace.getLast? = some Event.close) ∧
      ((S.setReadDeadline K = none ∧ (S.read K).2 = none ∧ S.setWriteDeadline K = none ∧
          (S.write K).2 = none ∧ (S.write K).1 ≠ response.length) →
        (helloScript S fuel).outcome = Outcome.fatal ∧
          (helloScript S fuel).trace.count Event.close = 0 ∧
          (helloScript S fuel).trace.getLast? = some (Event.logFatalln "Writing failed")) := by
  have hc : List.count Event.close ((List.range K).flatMap (successBlock S)) = 0 :=
    List.count_eq_zero.mpr (blocks_no_close S K)
  rcases helloScript_cases S K fuel hok hfail hfuel with
    ⟨err, h1, heq⟩ | ⟨err, h1, h2, heq⟩ | ⟨err, h1, h2, h3, heq⟩ |
    ⟨err, h1, h2, h3, h4, heq⟩ | ⟨h1, h2, h3, h4, h5, heq⟩
  · rw [heq]
    simp [h1, hc, List.count_cons, List.getLast?_append]
  · rw [heq]
    simp [h1, h2, hc, List.count_cons, List.getLast?_append]
  · rw [heq]
    simp [h1, h2, h3, hc, List.count_cons, List.getLast?_append]
  · rw [heq]
    simp [h1, h2, h3, h4, hc, List.count_cons, List.getLast?_append]
  · rw [heq]
    simp [h1, h2, h3, h4, h5, hc, List.count_cons, List.getLast?_append]

/-- The script `twoRounds`: the third read fails, and the run closes the
connection once, at its end. -/
theorem close_on_every_break_witness :
    (helloScript twoRounds 4).outcome = Outcome.returned ∧
      (helloScript twoRounds 4).trace.count Event.close = 1 ∧
      (helloScript twoRounds 4).trace.getLast? = some Event.close :=
  (close_on_every_break twoRounds 2 4 (by decide) (by decide) (by decide)).2.1
    (Or.inr (Or.inl (by decide)))

/-! ### Deadlines -/

theorem getElem?_append_close (tr : List Event) (j : Nat) (ev : Event)
    (h : (tr ++ [Event.close])[j]? = some ev) (hne : ev ≠ Event.close) : tr[j]? = some ev := by
  rcases Nat.lt_or_ge j tr.length with hlt | hge
  · rwa [List.getElem?_append_left hlt] at h
  · rw [List.getElem?_append_right hge] at h
    rcases Nat.eq_zero_or_pos (j - tr.length) with h0 | hpos
    · rw [h0] at h
      simp at h
      exact absurd h.symm hne
    · have : [Event.close][j - tr.length]? = none := by
        apply List.getElem?_eq_none
        simp only [List.length_singleton]
        omega
      rw [this] at h
      cases h

theorem getElem?_append_some (tr more : List Event) (i : Nat) (ev : Event)
    (h : tr[i]? = some ev) : (tr ++ more)[i]? = some ev := by
  have hlt : i < tr.length := by
    by_contra hge
    rw [List.getElem?_eq_none (by omega)] at h
    cases h
  rwa [List.getElem?_append_left hlt]

theorem readDeadlinesFresh_block (t1 t2 : Time) (data : List Byte) (n : Nat)
    (rest : List Event) (h : ReadDeadlinesFresh rest) :
    ReadDeadlinesFresh
      (Event.now t1 :: Event.setReadDeadline (t1 + 5 * Second) none ::
        Event.read bufLen data none :: Event.now t2 ::
        Event.setWriteDeadline (t2 + 5 * Second) none :: Event.write response n none ::
        rest) := by
  intro j d e hj
  rcases j with _ | _ | _ | _ | _ | _ | j
  · simp at hj
  · simp at hj
    exact ⟨0, t1, rfl, by simp, hj.1.symm⟩
  · simp at hj
  · simp at hj
  · simp at hj
  · simp at hj
  · simp only [List.getElem?_cons_succ] at hj
    obtain ⟨i, t, hi, hget, hd⟩ := h j d e hj
    exact ⟨i + 6, t, by omega, by simpa using hget, hd⟩

theorem writeDeadlinesFresh_block (S : Script) (k : Nat) (data : List Byte) (n : Nat)
    (rest : List Event) (h : WriteDeadlinesFresh S rest) :
    WriteDeadlinesFresh S
      (Event.now (S.clock k) :: Event.setReadDeadline (S.clock k + 5 * Second) none ::
        Event.read bufLen data none :: Event.now (S.clock (k + 1)) ::
        Event.setWriteDeadline (S.clock (k + 1) + 5 * Second) none ::
        Event.write response n none :: rest) := by
  intro j d e hj
  rcases j with _ | _ | _ | _ | _ | _ | j
  · simp at hj
  · simp at hj
  · simp at hj
  · simp at hj
  · simp at hj
    exact ⟨0, k, data, rfl, by simp, by simp, by simp, by simp, hj.1.symm⟩
  · simp at hj
  · simp only [List.getElem?_cons_succ] at hj
    obtain ⟨i, k2, data2, hi, h0, h1, h2, h3, hd⟩ := h j d e hj
    exact ⟨i + 6, k2, data2, by omega, by simpa using h0, by simpa using h1,
      by simpa using h2, by simpa using h3, hd⟩

theorem loop_deadlines (S : Script) :
    ∀ (fuel : Nat) (c : Calls),
      ReadDeadlinesFresh (helloLoop (scriptOps S) fuel c).1 ∧
        WriteDeadlinesFresh S (helloLoop (scriptOps S) fuel c).1 := by
  intro fuel
  induction fuel with
  | zero =>
    intro c
    constructor
    · intro j d e hj; simp [helloLoop] at hj
    · intro j d e hj; simp [helloLoop] at hj
  | succ fuel ih =>
    intro c
    simp only [helloLoop]
    split
    · constructor
      · intro j d e hj
        rcases j with _ | _ | _ | j <;> simp at hj
        exact ⟨0, _, rfl, by simp, hj.1.symm⟩
      · intro j d e hj
        rcases j with _ | _ | _ | j <;> simp at hj
    · split
      · constructor
        · intro j d e hj
          rcases j with _ | _ | _ | _ | j <;> simp at hj
          exact ⟨0, _, rfl, by simp, hj.1.symm⟩
        · intro j d e hj
          rcases j with _ | _ | _ | _ | j <;> simp at hj
      · split
        · constructor
          · intro j d e hj
            rcases j with _ | _ | _ | _ | _ | _ | j <;> simp at hj
            exact ⟨0, _, rfl, by simp, hj.1.symm⟩
          · intro j d e hj
            rcases j with _ | _ | _ | _ | _ | _ | j <;> simp at hj
            exact ⟨0, c.now, _, rfl, by simp [scriptOps], by simp [scriptOps],
              rfl, by simp [scriptOps], hj.1.symm⟩
        · split
          · constructor
            · intro j d e hj
              rcases j with _ | _ | _ | _ | _ | _ | _ | j <;> simp at hj
              exact ⟨0, _, rfl, by simp, hj.1.symm⟩
            · intro j d e hj
              rcases j with _ | _ | _ | _ | _ | _ | _ | j <;> simp at hj
              exact ⟨0, c.now, _, rfl, by simp [scriptOps], by simp [scriptOps],
                rfl, by simp [scriptOps], hj.1.symm⟩
          · split
            · constructor
              · intro j d e hj
                rcases j with _ | _ | _ | _ | _ | _ | _ | j <;> simp at hj
                exact ⟨0, _, rfl, by simp, hj.1.symm⟩
              · intro j d e hj
                rcases j with _ | _ | _ | _ | _ | _ | _ | j <;> simp at hj
                exact ⟨0, c.now, _, rfl, by simp [scriptOps], by simp [scriptOps],
                  rfl, by simp [scriptOps], hj.1.symm⟩
            · constructor
              · exact readDeadlinesFresh_block _ _ _ _ _ (ih _).1
              · exact writeDeadlinesFresh_block S c.now _ _ _ (ih _).2

theorem helloScript_deadlines (S : Script) (fuel : Nat) :
    ReadDeadlinesFresh (helloScript S fuel).trace ∧
      WriteDeadlinesFresh S (helloScript S fuel).trace := by
  have h := loop_deadlines S fuel (Calls.start 0)
  unfold helloScript
  cases hx : (helloLoop (scriptOps S) fuel (Calls.start 0)).2.1
  · rw [helloOn_broke _ _ _ hx]
    constructor
    · intro j d e hj
      have hj2 := getElem?_append_close _ j _ hj (by simp)
      obtain ⟨i, t, hi, hget, hd⟩ := h.1 j d e hj2
      exact ⟨i, t, hi, getElem?_append_some _ _ _ _ hget, hd⟩
    · intro j d e hj
      have hj2 := getElem?_append_close _ j _ hj (by simp)
      obtain ⟨i, k, data, hi, h0, h1, h2, h3, hd⟩ := h.2 j d e hj2
      exact ⟨i, k, data, hi, getElem?_append_some _ _ _ _ h0,
        getElem?_append_some _ _ _ _ h1, getElem?_append_some _ _ _ _ h2,
        getElem?_append_some _ _ _ _ h3, hd⟩
  · rw [helloOn_fatal _ _ _ hx]; exact h
  · rw [helloOn_running _ _ _ hx]; exact h

/-- C7: in every run on a script, each call of SetReadDeadline comes directly
after a reading `t` of the clock and is passed `t` plus 5 seconds; each call of
SetWriteDeadline comes directly after a reading of the clock that follows the
successful read of its iteration, a reading later by one than the one used for
the read deadline, and is passed that reading plus 5 seconds; so if the clock
never goes back, the write deadline of an iteration is not earlier than its
read deadline.  A deadline is determined by the one reading before it. -/
theorem deadlines_are_fresh (S : Script) (fuel : Nat) :
    5 * Second = 5000000000 ∧
    (∀ j d e, (helloScript S fuel).trace[j]? = some (Event.setReadDeadline d e) →
      ∃ i t, j = i + 1 ∧ (helloScript S fuel).trace[i]? = some (Event.now t) ∧
        d = t + 5 * Second) ∧
    (∀ j d e, (helloScript S fuel).trace[j]? = some (Event.setWriteDeadline d e) →
      ∃ i k data, j = i + 4 ∧
        (helloScript S fuel).trace[i]? = some (Event.now (S.clock k)) ∧
        (helloScript S fuel).trace[i + 1]? =
          some (Event.setReadDeadline (S.clock k + 5 * Second) none) ∧
        (helloScript S fuel).trace[i + 2]? = some (Event.read bufLen data none) ∧
        (helloScript S fuel).trace[i + 3]? = some (Event.now (S.clock (k + 1))) ∧
        d = S.clock (k + 1) + 5 * Second) ∧
    (Monotone S.clock →
      ∀ j d e, (helloScript S fuel).trace[j]? = some (Event.setWriteDeadline d e) →
        ∃ i d1, j = i + 3 ∧
          (helloScript S fuel).trace[i]? = some (Event.setReadDeadline d1 none) ∧ d1 ≤ d) := by
  have h := helloScript_deadlines S fuel
  refine ⟨by decide, h.1, h.2, ?_⟩
  intro hmono j d e hj
  obtain ⟨i, k, data, hi, _, h1, _, _, hd⟩ := h.2 j d e hj
  refine ⟨i + 1, _, by omega, h1, ?_⟩
  rw [hd]
  exact add_le_add_right (hmono (Nat.le_succ k)) _

/-- The script `twoRounds`, whose clock goes forward: the write deadline of
the first iteration, event 4 of the trace, is not earlier than the read
deadline, event 1. -/
theorem deadlines_are_fresh_witness :
    ∃ i d1, 4 = i + 3 ∧
      (helloScript twoRounds 3).trace[i]? = some (Event.setReadDeadline d1 none) ∧
      d1 ≤ 5000001000 :=
  (deadlines_are_fresh twoRounds 3).2.2.2
    (fun a b hab => by
      show (1000 : Int) * a ≤ 1000 * b
      have : (a : Int) ≤ b := by exact_mod_cast hab
      omega)
    4 5000001000 none (by decide)

/-! ### The arguments of `main` -/

theorem acceptLoop_listenCalls {κ : Type} (accept : Nat → Except Err κ) :
    ∀ (fuel i : Nat), listenCalls (acceptLoop accept fuel i).1 = [] := by
  intro fuel
  induction fuel with
  | zero => intro i; simp [acceptLoop, listenCalls]
  | succ fuel ih =>
    intro i
    simp only [acceptLoop, acceptOnce]
    cases h : accept i with
    | error err => simp [listenCalls]
    | ok conn => simp [listenCalls, ih]

/-- C8 fails as stated: the third argument `2147483648` is accepted by
`strconv.Atoi`, and `runtime.GOMAXPROCS(2147483648)` ends the process with the
fatal error `procresize: invalid arg` (exit status 2) before `net.Listen` is
called, because `int32(2147483648)` is negative. -/
theorem gomaxprocs_throws_before_listen :
    sampleEnv.atoi "2147483648" = Except.ok 2147483648 ∧
      toInt32 2147483648 = -2147483648 ∧
      main sampleEnv 3 ["hello-timeout", "127.0.0.1", "8095", "2147483648"] =
        ([MainEvent.gomaxprocs 2147483648, MainEvent.fatalError "procresize: invalid arg"],
          MainExit.exit 2) ∧
      listenCalls (main sampleEnv 3 ["hello-timeout", "127.0.0.1", "8095", "2147483648"]).1 =
        [] :=
  ⟨rfl, by decide, by decide, by decide⟩

/-- C8, as the code has it: `main` ends with a non-zero exit status without
having called `net.Listen` whenever the arguments after the program name are
not exactly three, or `strconv.Atoi` rejects the third of them, or
`runtime.GOMAXPROCS` on the parsed value does not return; and on exactly three
arguments the third of which `strconv.Atoi` accepts as a value on which
`runtime.GOMAXPROCS` returns, it calls `net.Listen` once, on the network `tcp`
and the address made of the first argument, a colon and the second argument. -/
theorem main_checks_arguments {κ : Type} (env : MainEnv κ) (fuel : Nat)
    (args : List String) :
    ((args.tail.length ≠ 3 ∨ ∃ err, env.atoi (args.getD 3 "") = Except.error err) →
      (∃ code, (main env fuel args).2 = MainExit.exit code ∧ code ≠ 0) ∧
        listenCalls (main env fuel args).1 = []) ∧
    (∀ prog host port procs n, args = [prog, host, port, procs] →
      env.atoi procs = Except.ok n →
      (∀ msg, env.gomaxprocs n = some msg →
        main env fuel args =
            ([MainEvent.gomaxprocs n, MainEvent.fatalError msg], MainExit.exit 2) ∧
          listenCalls (main env fuel args).1 = []) ∧
      (env.gomaxprocs n = none →
        listenCalls (main env fuel args).1 = [("tcp", host ++ ":" ++ port)] ∧
          ∃ err rest, (main env fuel args).1 =
            MainEvent.gomaxprocs n :: MainEvent.listen "tcp" (host ++ ":" ++ port) err ::
              rest)) := by
  constructor
  · intro h
    by_cases hlen : args.length = 4
    · have htail : args.tail.length = 3 := by simp [hlen]
      rcases h with h | ⟨err, herr⟩
      · exact absurd htail h
      · obtain ⟨a, b, c, d, rfl⟩ : ∃ a b c d, args = [a, b, c, d] := by
          match args, hlen with
          | [a, b, c, d], _ => exact ⟨a, b, c, d, rfl⟩
        simp only [List.getD_cons_succ, List.getD_cons_zero] at herr
        simp [main, herr, listenCalls]
    · cases args with
      | nil => simp [main, listenCalls]
      | cons prog rest =>
        have hrest : ¬ rest.length = 3 := by simpa using hlen
        simp [main, hrest, listenCalls]
  · intro prog host port procs n hargs hn
    subst hargs
    constructor
    · intro msg hg
      simp [main, hn, hg, listenCalls]
    · intro hg
      cases hl : env.listen "tcp" (host ++ ":" ++ port) with
      | some err =>
        simp [main, hn, hg, hl, listenCalls]
      | none =>
        simp [main, hn, hg, hl, listenCalls, acceptLoop_listenCalls]

/-- The arguments `127.0.0.1 8080 4`: `main` listens on `127.0.0.1:8080`. -/
theorem main_checks_arguments_witness :
    listenCalls (main sampleEnv 3 ["hello-timeout", "127.0.0.1", "8080", "4"]).1 =
      [("tcp", "127.0.0.1:8080")] :=
  (((main_checks_arguments sampleEnv 3 ["hello-timeout", "127.0.0.1", "8080", "4"]).2
    "hello-timeout" "127.0.0.1" "8080" "4" 4 rfl rfl).2 rfl).1

/-! ### The accept loop and the handlers -/

theorem spawned_append {κ : Type} (a b : List (MainEvent κ)) :
    spawned (a ++ b) = spawned a ++ spawned b := by
  induction a with
  | nil => simp [spawned]
  | cons ev a ih => cases ev <;> simp [spawned, ih]

theorem spawned_acceptedBlocks {κ : Type} (conn : Nat → κ) (k : Nat) :
    spawned (acceptedBlocks conn k) = (List.range k).map conn := by
  induction k with
  | zero => simp [acceptedBlocks, spawned]
  | succ k ih =>
    unfold acceptedBlocks at ih ⊢
    rw [List.range_succ, List.flatMap_append, spawned_append, ih]
    simp [spawned]

theorem acceptedBlocks_succ {κ : Type} (conn : Nat → κ) (k : Nat) :
    acceptedBlocks conn (k + 1) =
      acceptedBlocks conn k ++ [MainEvent.accepted (conn k), MainEvent.go (conn k)] := by
  unfold acceptedBlocks
  rw [List.range_succ, List.flatMap_append]
  simp

theorem acceptLoop_prefix {κ : Type} (accept : Nat → Except Err κ) (conn : Nat → κ) :
    ∀ (K i fuel : Nat), (∀ j, j < K → accept (i + j) = Except.ok (conn (i + j))) →
      acceptLoop accept (K + fuel) i =
        ((List.range K).flatMap
            (fun j => [MainEvent.accepted (conn (i + j)), MainEvent.go (conn (i + j))]) ++
          (acceptLoop accept fuel (i + K)).1, (acceptLoop accept fuel (i + K)).2) := by
  intro K
  induction K with
  | zero => intro i fuel _; simp
  | succ K ih =>
    intro i fuel h
    have h0 : accept i = Except.ok (conn i) := by simpa using h 0 (Nat.succ_pos K)
    have hrest : ∀ j, j < K → accept (i + 1 + j) = Except.ok (conn (i + 1 + j)) := by
      intro j hj
      have := h (j + 1) (Nat.succ_lt_succ hj)
      rwa [show i + (j + 1) = i + 1 + j by omega] at this
    have e1 : K + 1 + fuel = (K + fuel) + 1 := by omega
    rw [e1]
    simp only [acceptLoop, acceptOnce, h0]
    rw [ih (i + 1) fuel hrest]
    have e2 : i + 1 + K = i + (K + 1) := by omega
    simp only [e2, List.range_succ_eq_map, List.flatMap_cons, List.flatMap_map, Nat.add_zero,
      List.append_assoc, Function.comp_def]
    have e3 : (fun a : Nat =>
          [MainEvent.accepted (conn (i + a.succ)), MainEvent.go (conn (i + a.succ))]) =
        fun j => [MainEvent.accepted (conn (i + 1 + j)), MainEvent.go (conn (i + 1 + j))] := by
      funext a
      rw [show i + a.succ = i + 1 + a by omega]
    rw [e3]

theorem acceptLoop_running {κ : Type} (accept : Nat → Except Err κ) (conn : Nat → κ)
    (k : Nat) (hok : ∀ i, i < k → accept i = Except.ok (conn i)) :
    acceptLoop accept k 0 = (acceptedBlocks conn k, MainExit.running) := by
  have h := acceptLoop_prefix accept conn k 0 0 (by simpa using hok)
  simp only [Nat.zero_add, Nat.add_zero] at h
  rw [h]
  simp [acceptLoop, acceptedBlocks]

theorem acceptLoop_fails {κ : Type} (accept : Nat → Except Err κ) (conn : Nat → κ)
    (n fuel : Nat) (err : Err) (hok : ∀ i, i < n → accept i = Except.ok (conn i))
    (hfail : accept n = Except.error err) :
    acceptLoop accept (n + (fuel + 1)) 0 =
      (acceptedBlocks conn n ++
          [MainEvent.acceptFailed err, MainEvent.logFatalf ("Accepting failed: " ++ err)],
        MainExit.exit 1) := by
  have h := acceptLoop_prefix accept conn n 0 (fuel + 1) (by simpa using hok)
  simp only [Nat.zero_add] at h
  rw [h]
  simp [acceptLoop, acceptOnce, hfail, acceptedBlocks]

theorem step_inv {κ : Type} (accept : Nat → Except Err κ) (handlers : Nat → Script)
    (conn : Nat → κ) (n : Nat) (err : Err)
    (hok : ∀ i, i < n → accept i = Except.ok (conn i)) (hfail : accept n = Except.error err)
    (p : Proc κ) (st : Step) (hp : ProcInv conn handlers n err p) :
    ProcInv conn handlers n err (Proc.step accept handlers p st) := by
  obtain ⟨h1, h2, h3⟩ := hp
  cases st with
  | dispatcher =>
    cases hend : p.ended with
    | some x =>
      simp only [Proc.step, hend]
      exact ⟨h1, h2, h3⟩
    | none =>
      obtain ⟨hle, htr⟩ := h1 (by rw [hend]; simp)
      rcases Nat.lt_or_eq_of_le hle with hlt | heq
      · simp only [Proc.step, hend, acceptOnce, hok _ hlt, ProcInv]
        refine ⟨fun _ => ⟨hlt, ?_⟩, fun h => by simp at h, fun j h => by simp at h⟩
        rw [htr, acceptedBlocks_succ]
      · have hf : accept p.iterations = Except.error err := by rw [heq]; exact hfail
        simp only [Proc.step, hend, acceptOnce, hf, ProcInv]
        refine ⟨fun h => by simp at h, fun _ => ⟨by rw [heq], ?_⟩, fun j h => by simp at h⟩
        rw [htr, heq]
  | handler j fuel =>
    cases hend : p.ended with
    | some x =>
      simp only [Proc.step, hend]
      exact ⟨h1, h2, h3⟩
    | none =>
      obtain ⟨hle, htr⟩ := h1 (by rw [hend]; simp)
      simp only [Proc.step, hend]
      split
      · rename_i hc
        refine ⟨fun _ => ⟨hle, htr⟩, fun h => by simp at h, fun j2 h => ?_⟩
        simp only [Option.some.injEq, ProcExit.handlerFatal.injEq] at h
        subst h
        have hj := hc.1
        rw [htr, spawned_acceptedBlocks] at hj
        simp only [List.length_map, List.length_range] at hj
        exact ⟨by omega, fuel, hc.2⟩
      · exact ⟨h1, h2, h3⟩

theorem foldl_inv {κ : Type} (accept : Nat → Except Err κ) (handlers : Nat → Script)
    (conn : Nat → κ) (n : Nat) (err : Err)
    (hok : ∀ i, i < n → accept i = Except.ok (conn i)) (hfail : accept n = Except.error err) :
    ∀ (sched : List Step) (p : Proc κ), ProcInv conn handlers n err p →
      ProcInv conn handlers n err (sched.foldl (Proc.step accept handlers) p) := by
  intro sched
  induction sched with
  | nil => intro p hp; exact hp
  | cons st sched ih =>
    intro p hp
    exact ih _ (step_inv accept handlers conn n err hok hfail p st hp)

theorem foldl_live {κ : Type} (accept : Nat → Except Err κ) (handlers : Nat → Script)
    (conn : Nat → κ) (n : Nat) (err : Err)
    (hok : ∀ i, i < n → accept i = Except.ok (conn i)) (hfail : accept n = Except.error err)
    (hnf : ∀ j fuel, (helloScript (handlers j) fuel).outcome ≠ Outcome.fatal) :
    ∀ (sched : List Step) (p : Proc κ), ProcInv conn handlers n err p →
      (∀ j, p.ended ≠ some (ProcExit.handlerFatal j)) →
      (sched.foldl (Proc.step accept handlers) p).iterations =
        min (p.iterations + dispatcherSteps sched) (n + 1) := by
  intro sched
  induction sched with
  | nil =>
    intro p hp _
    simp only [List.foldl_nil, dispatcherSteps, List.count_nil, Nat.add_zero]
    by_cases h : p.ended = some ProcExit.acceptFatal
    · rw [(hp.2.1 h).1]; simp
    · have := (hp.1 h).1
      omega
  | cons st sched ih =>
    intro p hp hnh
    have hp2 := step_inv accept handlers conn n err hok hfail p st hp
    cases st with
    | dispatcher =>
      cases hend : p.ended with
      | some x =>
        have hx : x = ProcExit.acceptFatal := by
          cases x with
          | acceptFatal => rfl
          | handlerFatal j => exact absurd hend (hnh j)
        subst hx
        have hsame : Proc.step accept handlers p Step.dispatcher = p := by
          simp only [Proc.step, hend]
        rw [List.foldl_cons, hsame, ih p hp hnh, (hp.2.1 hend).1]
        simp
      | none =>
        have hle := (hp.1 (by rw [hend]; simp)).1
        have hnh2 : ∀ j, (Proc.step accept handlers p Step.dispatcher).ended ≠
            some (ProcExit.handlerFatal j) := by
          intro j
          simp only [Proc.step, hend]
          cases (acceptOnce accept p.iterations).2 <;> simp
        have hit : (Proc.step accept handlers p Step.dispatcher).iterations =
            p.iterations + 1 := by
          simp only [Proc.step, hend]
        rw [List.foldl_cons, ih _ hp2 hnh2, hit]
        simp only [dispatcherSteps, List.count_cons_self]
        omega
    | handler j fuel =>
      have hsame : Proc.step accept handlers p (Step.handler j fuel) = p := by
        cases hend : p.ended with
        | some x => simp only [Proc.step, hend]
        | none => simp [Proc.step, hend, hnf j fuel]
      rw [List.foldl_cons, hsame, ih p hp hnh]
      simp [dispatcherSteps, List.count_cons]

theorem initial_inv {κ : Type} (handlers : Nat → Script) (conn : Nat → κ) (n : Nat)
    (err : Err) :
    ProcInv conn handlers n err ({ iterations := 0, trace := [], ended := none } : Proc κ) := by
  refine ⟨fun _ => ⟨Nat.zero_le n, by simp [acceptedBlocks]⟩, fun h => by simp at h,
    fun j h => by simp at h⟩

theorem loop_contract_never_fatal (S : Script)
    (hw : ∀ i, (S.write i).2 = none → (S.write i).1 = response.length) :
    ∀ (fuel : Nat) (c : Calls), (helloLoop (scriptOps S) fuel c).2.1 ≠ LoopExit.fatal := by
  intro fuel
  induction fuel with
  | zero => intro c; simp [helloLoop]
  | succ fuel ih =>
    intro c
    cases h1 : S.setReadDeadline c.setReadDeadline with
    | some err => simp [helloLoop, scriptOps, h1]
    | none =>
      cases h2 : (S.read c.read).2 with
      | some err => simp [helloLoop, scriptOps, h1, h2]
      | none =>
        cases h3 : S.setWriteDeadline c.setWriteDeadline with
        | some err => simp [helloLoop, scriptOps, h1, h2, h3]
        | none =>
          cases h4 : (S.write c.write).2 with
          | some err => simp [helloLoop, scriptOps, h1, h2, h3, h4]
          | none =>
            have h5 := hw c.write h4
            have := ih { now := c.now + 1 + 1, setReadDeadline := c.setReadDeadline + 1,
                         read := c.read + 1, setWriteDeadline := c.setWriteDeadline + 1,
                         write := c.write + 1 }
            simp only [scriptOps] at this
            simp [helloLoop, scriptOps, h1, h2, h3, h4, h5, this]

theorem contract_never_fatal (S : Script)
    (hw : ∀ i, (S.write i).2 = none → (S.write i).1 = response.length) (fuel : Nat) :
    (helloScript S fuel).outcome ≠ Outcome.fatal := by
  have h := loop_contract_never_fatal S hw fuel (Calls.start 0)
  unfold helloScript
  cases hx : (helloLoop (scriptOps S) fuel (Calls.start 0)).2.1
  · rw [helloOn_broke _ _ _ hx]; simp
  · exact absurd hx h
  · rw [helloOn_running _ _ _ hx]; simp

theorem runProcess_inv {κ : Type} (accept : Nat → Except Err κ) (handlers : Nat → Script)
    (conn : Nat → κ) (n : Nat) (err : Err) (sched : List Step)
    (hok : ∀ i, i < n → accept i = Except.ok (conn i)) (hfail : accept n = Except.error err) :
    ProcInv conn handlers n err (runProcess accept handlers sched) :=
  foldl_inv accept handlers conn n err hok hfail sched _ (initial_inv handlers conn n err)

theorem runProcess_iterations {κ : Type} (accept : Nat → Except Err κ)
    (handlers : Nat → Script) (conn : Nat → κ) (n : Nat) (err : Err) (sched : List Step)
    (hok : ∀ i, i < n → accept i = Except.ok (conn i)) (hfail : accept n = Except.error err)
    (hnf : ∀ j fuel, (helloScript (handlers j) fuel).outcome ≠ Outcome.fatal) :
    (runProcess accept handlers sched).iterations = min (dispatcherSteps sched) (n + 1) := by
  have hlive := foldl_live accept handlers conn n err hok hfail hnf sched _
    (initial_inv handlers conn n err) (fun j h => by simp at h)
  unfold runProcess
  rw [hlive]
  simp only [Nat.zero_add]

/-- What the contract of `io.Writer` rules out: on a connection whose `Write`
returns 10 and no error, the handler ends the process after one iteration of
the accept loop, and the dispatcher step that follows does nothing. -/
theorem short_write_in_handler_ends_process :
    (runProcess acceptOne (fun _ => writeReturns 10)
        [Step.dispatcher, Step.handler 0 1, Step.dispatcher]).ended =
        some (ProcExit.handlerFatal 0) ∧
      (runProcess acceptOne (fun _ => writeReturns 10)
        [Step.dispatcher, Step.handler 0 1, Step.dispatcher]).iterations = 1 := by
  decide

/-- C9: when the first `n` calls of `Accept` return the connections `conn 0`,
..., `conn (n-1)` and the next one fails with any error, the accept loop
starts exactly `n` handlers, one per accepted connection and in the order of
acceptance, and then ends the process with status 1.  In a process run along
any schedule of dispatcher and handler steps, where the connections keep the
contract of `io.Writer` as those returned by `Accept` do (a `Write` that
returns no error has written everything), no handler ends the process,
whatever fails in it; every dispatcher step up to the failing `Accept` is an
iteration of the accept loop, however many handler steps come in between; the
handlers started are the connections accepted so far, each once and in order;
and the process has ended exactly when the dispatcher has made more than `n`
steps, and then by the failing `Accept`, with the trace of the accept loop run
on its own. -/
theorem dispatcher_starts_one_handler_each {κ : Type} (accept : Nat → Except Err κ)
    (handlers : Nat → Script) (conn : Nat → κ) (n : Nat) (err : Err) (sched : List Step)
    (hok : ∀ i, i < n → accept i = Except.ok (conn i)) (hfail : accept n = Except.error err)
    (hcontract : ∀ j i, ((handlers j).write i).2 = none →
      ((handlers j).write i).1 = response.length) :
    (∀ fuel, n < fuel →
      acceptLoop accept fuel 0 =
          (acceptedBlocks conn n ++
            [MainEvent.acceptFailed err, MainEvent.logFatalf ("Accepting failed: " ++ err)],
            MainExit.exit 1) ∧
        spawned (acceptLoop accept fuel 0).1 = (List.range n).map conn) ∧
      (∀ j fuel, (helloScript (handlers j) fuel).outcome ≠ Outcome.fatal) ∧
      (∀ j, (runProcess accept handlers sched).ended ≠ some (ProcExit.handlerFatal j)) ∧
      (runProcess accept handlers sched).iterations = min (dispatcherSteps sched) (n + 1) ∧
      spawned (runProcess accept handlers sched).trace =
        (List.range (min (dispatcherSteps sched) n)).map conn ∧
      ((runProcess accept handlers sched).ended = none ↔ dispatcherSteps sched ≤ n) ∧
      ((runProcess accept handlers sched).ended = some ProcExit.acceptFatal ↔
        n < dispatcherSteps sched) ∧
      (n < dispatcherSteps sched →
        (runProcess accept handlers sched).trace = (acceptLoop accept (n + 1) 0).1) := by
  have hloop : ∀ fuel, n < fuel →
      acceptLoop accept fuel 0 =
        (acceptedBlocks conn n ++
          [MainEvent.acceptFailed err, MainEvent.logFatalf ("Accepting failed: " ++ err)],
          MainExit.exit 1) := by
    intro fuel hf
    obtain ⟨f, rfl⟩ : ∃ f, fuel = n + (f + 1) := ⟨fuel - n - 1, by omega⟩
    exact acceptLoop_fails accept conn n f err hok hfail
  have hsp : spawned (acceptedBlocks conn n ++
      [MainEvent.acceptFailed err, MainEvent.logFatalf ("Accepting failed: " ++ err)]) =
      (List.range n).map conn := by
    rw [spawned_append, spawned_acceptedBlocks]
    simp [spawned]
  have hnf : ∀ j fuel, (helloScript (handlers j) fuel).outcome ≠ Outcome.fatal :=
    fun j fuel => contract_never_fatal (handlers j) (hcontract j) fuel
  obtain ⟨h1, h2, h3⟩ := runProcess_inv accept handlers conn n err sched hok hfail
  have hit := runProcess_iterations accept handlers conn n err sched hok hfail hnf
  have hnh : ∀ j, (runProcess accept handlers sched).ended ≠
      some (ProcExit.handlerFatal j) := by
    intro j hj
    obtain ⟨_, fuel, hf⟩ := h3 j hj
    exact hnf j fuel hf
  have hfatal : (runProcess accept handlers sched).ended = some ProcExit.acceptFatal ↔
      n < dispatcherSteps sched := by
    constructor
    · intro h
      have := (h2 h).1
      rw [hit] at this
      omega
    · intro h
      by_contra hne
      have := (h1 hne).1
      rw [hit] at this
      omega
  refine ⟨fun fuel hf => ⟨hloop fuel hf, by rw [hloop fuel hf, hsp]⟩, hnf, hnh, hit, ?_, ?_,
    hfatal, ?_⟩
  · by_cases h : (runProcess accept handlers sched).ended = some ProcExit.acceptFatal
    · have hlt := hfatal.mp h
      rw [(h2 h).2, hsp, Nat.min_eq_right (Nat.le_of_lt hlt)]
    · have hle : dispatcherSteps sched ≤ n := by
        by_contra hgt
        exact h (hfatal.mpr (by omega))
      rw [(h1 h).2, spawned_acceptedBlocks, hit, Nat.min_eq_left hle,
        Nat.min_eq_left (by omega)]
  · constructor
    · intro h
      by_contra hgt
      have := hfatal.mpr (by omega)
      rw [h] at this
      cases this
    · intro hle
      cases hend : (runProcess accept handlers sched).ended with
      | none => rfl
      | some x =>
        cases x with
        | acceptFatal =>
          have := hfatal.mp hend
          omega
        | handlerFatal j => exact absurd hend (hnh j)
  · intro hlt
    rw [(h2 (hfatal.mpr hlt)).2, hloop (n + 1) (Nat.lt_succ_self n)]

/-- The surroundings `sampleEnv`, where two connections arrive before `Accept`
fails, with handlers whose first `Write` fails after 10 bytes: the failures in
the handlers leave the accept loop going, and the process ends at the failing
`Accept` with both handlers started. -/
theorem dispatcher_starts_one_handler_each_witness :
    (runProcess sampleEnv.accept (fun _ => writeError)
        [Step.dispatcher, Step.handler 0 5, Step.dispatcher, Step.handler 1 5,
          Step.dispatcher]).ended = some ProcExit.acceptFatal ∧
      spawned (runProcess sampleEnv.accept (fun _ => writeError)
        [Step.dispatcher, Step.handler 0 5, Step.dispatcher, Step.handler 1 5,
          Step.dispatcher]).trace = [0, 1] :=
  ⟨(dispatcher_starts_one_handler_each sampleEnv.accept (fun _ => writeError) id 2
      "use of closed network connection"
      [Step.dispatcher, Step.handler 0 5, Step.dispatcher, Step.handler 1 5, Step.dispatcher]
      (fun i hi => by simp [sampleEnv, hi]) rfl
      (fun _ _ h => by simp [writeError] at h)).2.2.2.2.2.2.1.mpr (by decide),
   (dispatcher_starts_one_handler_each sampleEnv.accept (fun _ => writeError) id 2
      "use of closed network connection"
      [Step.dispatcher, Step.handler 0 5, Step.dispatcher, Step.handler 1 5, Step.dispatcher]
      (fun i hi => by simp [sampleEnv, hi]) rfl
      (fun _ _ h => by simp [writeError] at h)).2.2.2.2.1⟩

/-! ### Requests and responses -/

theorem client_round (r : List Byte) (todo : List (List Byte)) (t d : Time) (fuel : Nat)
    (h1 : 1 ≤ r.length) (h2 : r.length ≤ 1024) :
    helloLoop (bufioOps clientConn) (fuel + 1)
        (NewReader, { time := t, readDeadline := d, inbox := r, todo := todo }) =
      ([Event.now t, Event.setReadDeadline (t + 5 * Second) none, Event.read bufLen r none,
          Event.now t, Event.setWriteDeadline (t + 5 * Second) none,
          Event.write response response.length none] ++
        (helloLoop (bufioOps clientConn) fuel
          (NewReader, { time := t, readDeadline := t + 5 * Second, inbox := todo.headD [],
                        todo := todo.tail })).1,
        (helloLoop (bufioOps clientConn) fuel
          (NewReader, { time := t, readDeadline := t + 5 * Second, inbox := todo.headD [],
                        todo := todo.tail })).2) := by
  have hne : r ≠ [] := by
    intro h
    rw [h] at h1
    simp at h1
  have ht1 : List.take 4096 r = r := List.take_of_length_le (by omega)
  have hd1 : List.drop 4096 r = [] := List.drop_of_length_le (by omega)
  have ht2 : List.take 1024 r = r := List.take_of_length_le (by omega)
  have hd2 : List.drop 1024 r = [] := List.drop_of_length_le (by omega)
  have hl : ¬ r.length = 0 := by omega
  cases todo with
  | nil =>
    simp [helloLoop, bufioOps, clientConn, Reader.Read, NewReader, bufLen, hne, ht1, hd1, ht2,
      hd2, hl]
  | cons r2 rest =>
    simp [helloLoop, bufioOps, clientConn, Reader.Read, NewReader, bufLen, hne, ht1, hd1, ht2,
      hd2, hl]

theorem client_timeout (t d : Time) (fuel : Nat) :
    (helloLoop (bufioOps clientConn) (fuel + 1)
        (NewReader, { time := t, readDeadline := d, inbox := [], todo := [] })).1 =
      [Event.now t, Event.setReadDeadline (t + 5 * Second) none,
        Event.read bufLen [] (some "i/o timeout"),
        Event.logPrintf "Reading failed: i/o timeout"] ∧
    (helloLoop (bufioOps clientConn) (fuel + 1)
        (NewReader, { time := t, readDeadline := d, inbox := [], todo := [] })).2.1 =
      LoopExit.broke := by
  simp [helloLoop, bufioOps, clientConn, Reader.Read, NewReader, bufLen]

theorem writesOf_round (t1 d1 t2 d2 : Time) (data : List Byte) (rest : List Event) :
    writesOf ([Event.now t1, Event.setReadDeadline d1 none, Event.read bufLen data none,
        Event.now t2, Event.setWriteDeadline d2 none,
        Event.write response response.length none] ++ rest) =
      response :: writesOf rest := rfl

theorem readsOf_round (t1 d1 t2 d2 : Time) (data : List Byte) (rest : List Event) :
    readsOf ([Event.now t1, Event.setReadDeadline d1 none, Event.read bufLen data none,
        Event.now t2, Event.setWriteDeadline d2 none,
        Event.write response response.length none] ++ rest) =
      data :: readsOf rest := rfl

theorem client_loop :
    ∀ (todo : List (List Byte)) (r : List Byte) (t d : Time) (fuel : Nat),
      (1 ≤ r.length ∧ r.length ≤ 1024) →
      (∀ q ∈ todo, 1 ≤ q.length ∧ q.length ≤ 1024) →
      todo.length + 1 < fuel →
      writesOf (helloLoop (bufioOps clientConn) fuel
          (NewReader, { time := t, readDeadline := d, inbox := r, todo := todo })).1 =
        List.replicate (todo.length + 1) response ∧
      readsOf (helloLoop (bufioOps clientConn) fuel
          (NewReader, { time := t, readDeadline := d, inbox := r, todo := todo })).1 =
        r :: todo ∧
      (helloLoop (bufioOps clientConn) fuel
          (NewReader, { time := t, readDeadline := d, inbox := r, todo := todo })).2.1 =
        LoopExit.broke := by
  intro todo
  induction todo with
  | nil =>
    intro r t d fuel hr _ hfuel
    obtain ⟨f, rfl⟩ : ∃ f, fuel = (f + 1) + 1 := ⟨fuel - 2, by simp at hfuel; omega⟩
    rw [client_round r [] t d (f + 1) hr.1 hr.2]
    have hto := client_timeout t (t + 5 * Second) f
    simp only [List.headD_nil, List.tail_nil]
    rw [hto.1, hto.2]
    simp [writesOf, readsOf]
  | cons r2 rest ih =>
    intro r t d fuel hr htodo hfuel
    obtain ⟨f, rfl⟩ : ∃ f, fuel = f + 1 := ⟨fuel - 1, by omega⟩
    rw [client_round r (r2 :: rest) t d f hr.1 hr.2]
    simp only [List.headD_cons, List.tail_cons]
    have hr2 := htodo r2 (List.mem_cons_self _ _)
    have hrest : ∀ q ∈ rest, 1 ≤ q.length ∧ q.length ≤ 1024 :=
      fun q hq => htodo q (List.mem_cons_of_mem _ hq)
    obtain ⟨hw, hrd, hex⟩ := ih r2 t (t + 5 * Second) f hr2 hrest
      (by simp only [List.length_cons] at hfuel; omega)
    refine ⟨?_, ?_, hex⟩
    · rw [writesOf_round, hw]
      simp only [List.length_cons, List.replicate_succ]
    · rw [readsOf_round, hrd]

set_option maxRecDepth 100000 in
/-- C3 fails as stated: one request of 1025 bytes, delivered whole, is
answered with two copies of the payload: the first `reader.Read` hands out 1024
bytes and the second the one byte left in the buffer. -/
theorem long_request_is_answered_twice :
    writesOf (hello clientConn 4 (Client.connect [List.replicate 1025 65])).trace =
        [response, response] ∧
      (readsOf (hello clientConn 4 (Client.connect [List.replicate 1025 65])).trace).map
        List.length = [1024, 1] ∧
      (hello clientConn 4 (Client.connect [List.replicate 1025 65])).outcome =
        Outcome.returned := by
  decide

/-- C3, as the code has it: for `K ≥ 1` requests of 1 to 1024 bytes each, of
any content, each delivered whole and followed by the client waiting for the
response, the reads of `hello` deliver exactly the requests, one per read and
in order, `hello` writes exactly `K` copies of the payload, and it returns
when the client has no more to send and the read times out. -/
theorem one_response_per_short_request (reqs : List (List Byte)) (fuel : Nat)
    (hne : reqs ≠ []) (hlen : ∀ r ∈ reqs, 1 ≤ r.length ∧ r.length ≤ 1024)
    (hfuel : reqs.length < fuel) :
    writesOf (hello clientConn fuel (Client.connect reqs)).trace =
        List.replicate reqs.length response ∧
      readsOf (hello clientConn fuel (Client.connect reqs)).trace = reqs ∧
      (hello clientConn fuel (Client.connect reqs)).outcome = Outcome.returned := by
  cases reqs with
  | nil => exact absurd rfl hne
  | cons r todo =>
    obtain ⟨hw, hrd, hex⟩ := client_loop todo r 0 0 fuel (hlen r (List.mem_cons_self _ _))
      (fun q hq => hlen q (List.mem_cons_of_mem _ hq))
      (by simp only [List.length_cons] at hfuel; omega)
    unfold hello
    simp only [Client.connect]
    rw [helloOn_broke _ _ _ hex]
    simp only [writesOf_append_close, readsOf_append_close, hw, hrd, List.length_cons,
      and_self]

/-- Two requests, of 16 and of 1024 bytes: two responses. -/
theorem one_response_per_short_request_witness :
    writesOf (hello clientConn 3
        (Client.connect [goBytes "GET / HTTP/1.1\n\n", List.replicate 1024 65])).trace =
      [response, response] :=
  (one_response_per_short_request [goBytes "GET / HTTP/1.1\n\n", List.replicate 1024 65] 3
    (List.cons_ne_nil _ _) (by
      intro r hr
      simp only [List.mem_cons, List.mem_singleton, List.not_mem_nil, or_false] at hr
      rcases hr with rfl | rfl
      · decide
      · rw [List.length_replicate]
        omega) (by simp only [List.length_cons, List.length_nil]; omega)).1

end HelloTimeout
